import Mathlib

/-!
Verification development for the jinchanchan-assistant repository.

Shallow embedding of the core data model and operations:
`core/action.py`, `core/game_state.py`, `core/rules/validator.py`,
`core/rules/quick_actions.py`, `core/rules/decision_engine.py`,
`core/llm/client.py`, `core/geometry/transform.py`,
`core/coordinate_scaler.py`, `core/vision/regions.py`, and the
session-loop safety gates of `main.py`.

Machine integers are modelled as `Int` / `Nat`; Python floats that only
carry exact decimal constants (confidences, monotonic times) are modelled
as `Rat`.  Fallible Python code (exceptions) is modelled with
`Except String` or explicit error components.
-/

namespace Jinchanchan

/-- Python `int(x)` truncation toward zero on a rational. -/
def pytrunc (q : ℚ) : ℤ := if 0 ≤ q then ⌊q⌋ else -⌊-q⌋

/-- Python truthiness of an optional string: `None` and `""` are falsy. -/
def optStrTruthy : Option String → Bool
  | none => false
  | some s => !(s.isEmpty)

/-- A region used to exhibit the collapse of `UIRegion.scale`. -/
instance {ε α : Type} [DecidableEq ε] [DecidableEq α] : DecidableEq (Except ε α) :=
  fun x y =>
  match x, y with
  | Except.error a, Except.error b =>
      if h : a = b then Decidable.isTrue (by rw [h]) else Decidable.isFalse (by simp [h])
  | Except.ok a, Except.ok b =>
      if h : a = b then Decidable.isTrue (by rw [h]) else Decidable.isFalse (by simp [h])
  | Except.error _, Except.ok _ => Decidable.isFalse (by simp)
  | Except.ok _, Except.error _ => Decidable.isFalse (by simp)

/-! ## Action model (`core/action.py`) -/

/-- The `ActionType` enum from `core/action.py`. -/
inductive ActionType where
  | buy_hero
  | sell_hero
  | move_hero
  | refresh_shop
  | lock_shop
  | level_up
  | equip_item
  | unequip_item
  | combine_items
  | deploy_hero
  | recall_hero
  | wait
  | none
  deriving DecidableEq, Repr

/-- The string value of each `ActionType` enum member. -/
def ActionType.value : ActionType → String
  | .buy_hero => "buy_hero"
  | .sell_hero => "sell_hero"
  | .move_hero => "move_hero"
  | .refresh_shop => "refresh_shop"
  | .lock_shop => "lock_shop"
  | .level_up => "level_up"
  | .equip_item => "equip_item"
  | .unequip_item => "unequip_item"
  | .combine_items => "combine_items"
  | .deploy_hero => "deploy_hero"
  | .recall_hero => "recall_hero"
  | .wait => "wait"
  | .none => "none"

/-- The `ActionPriority` enum from `core/action.py`. -/
inductive ActionPriority where
  | critical
  | high
  | normal
  | low
  | background
  deriving DecidableEq, Repr

/-- Integer value of an `ActionPriority` member. -/
def ActionPriority.value : ActionPriority → ℤ
  | .critical => 100
  | .high => 75
  | .normal => 50
  | .low => 25
  | .background => 0

/-- A metadata value stored in `Action.metadata` (string or number). -/
inductive MetaVal where
  | str (s : String)
  | num (q : ℚ)
  deriving DecidableEq, Repr

/-- The `Action` dataclass from `core/action.py`.  Positions are tuples of
ints of varying arity, modelled as `List ℤ`. -/
structure Action where
  type : ActionType
  target : Option String := Option.none
  position : Option (List ℤ) := Option.none
  source_position : Option (List ℤ) := Option.none
  priority : ActionPriority := ActionPriority.normal
  reasoning : String := ""
  confidence : ℚ := 1
  metadata : List (String × MetaVal) := []
  deriving DecidableEq, Repr

/-- The `Action.buy_hero` classmethod. -/
def Action.buy_hero (hero_name : String) (slot_index : ℤ) (reasoning : String := "") :
    Action :=
  { type := ActionType.buy_hero
    target := some hero_name
    position := some [slot_index]
    reasoning := reasoning
    priority := ActionPriority.high }

/-- The `Action.sell_hero` classmethod. -/
def Action.sell_hero (hero_name : String) (position : List ℤ) (reasoning : String := "") :
    Action :=
  { type := ActionType.sell_hero
    target := some hero_name
    position := some position
    reasoning := reasoning
    priority := ActionPriority.low }

/-- The `Action.move_hero` classmethod. -/
def Action.move_hero (hero_name : String) (from_pos to_pos : List ℤ)
    (reasoning : String := "") : Action :=
  { type := ActionType.move_hero
    target := some hero_name
    source_position := some from_pos
    position := some to_pos
    reasoning := reasoning
    priority := ActionPriority.normal }

/-- The `Action.refresh_shop` classmethod. -/
def Action.refresh_shop (reasoning : String := "") : Action :=
  { type := ActionType.refresh_shop
    reasoning := reasoning
    priority := ActionPriority.normal }

/-- The `Action.level_up` classmethod.  Note the source sets the action priority
to `HIGH` here, while the emergency rule that emits it carries `CRITICAL`. -/
def Action.level_up (reasoning : String := "") : Action :=
  { type := ActionType.level_up
    reasoning := reasoning
    priority := ActionPriority.high }

/-- The `Action.wait` classmethod. -/
def Action.wait (duration : ℚ := 1) (reasoning : String := "") : Action :=
  { type := ActionType.wait
    metadata := [("duration", MetaVal.num duration)]
    reasoning := reasoning
    priority := ActionPriority.background }

/-- The `Action.none_action` classmethod. -/
def Action.none_action (reasoning : String := "") : Action :=
  { type := ActionType.none
    reasoning := reasoning
    priority := ActionPriority.background }

/-! ## Game state (`core/game_state.py`) -/

/-- The `GamePhase` enum. -/
inductive GamePhase where
  | loading
  | preparation
  | combat
  | carousel
  | settlement
  | unknown
  deriving DecidableEq, Repr

/-- The `Hero` pydantic model.  Field bound checks (`cost ∈ [1,5]`,
`stars ∈ [1,3]`, `level ≥ 1`) are enforced by `mkHero` below, mirroring
pydantic validation on construction. -/
structure Hero where
  name : String
  cost : ℤ
  stars : ℤ := 1
  level : ℤ := 1
  synergies : List String := []
  position : Option (ℤ × ℤ) := Option.none
  items : List String := []
  deriving DecidableEq, Repr

/-- Pydantic construction of a `Hero`: validates the declared field bounds
(`cost` with `ge=1, le=5`, `stars` with `ge=1, le=3`, `level` with `ge=1`)
and raises `ValidationError` when violated. -/
def mkHero (name : String) (cost : ℤ) (stars : ℤ := 1) (level : ℤ := 1)
    (position : Option (ℤ × ℤ) := Option.none) : Except String Hero :=
  if 1 ≤ cost ∧ cost ≤ 5 ∧ 1 ≤ stars ∧ stars ≤ 3 ∧ 1 ≤ level then
    Except.ok { name := name, cost := cost, stars := stars, level := level,
                position := position }
  else
    Except.error "ValidationError"

/-- The `Synergy` pydantic model. -/
structure Synergy where
  name : String
  count : ℤ := 0
  breakpoints : List ℤ := []
  is_active : Bool := false
  next_breakpoint : Option ℤ := Option.none
  deriving DecidableEq, Repr

/-- The `ShopSlot` dataclass. -/
structure ShopSlot where
  index : ℤ
  hero_name : Option String := Option.none
  cost : ℤ := 0
  is_sold : Bool := false
  deriving DecidableEq, Repr

/-- The `GameState` dataclass.  `synergies` (a Python dict keyed by name,
insertion-ordered) is modelled as an association list. -/
structure GameState where
  phase : GamePhase := GamePhase.unknown
  round_number : ℤ := 0
  stage : ℤ := 0
  gold : ℤ := 0
  hp : ℤ := 100
  level : ℤ := 1
  exp : ℤ := 0
  exp_to_level : ℤ := 0
  heroes : List Hero := []
  bench_heroes : List Hero := []
  synergies : List (String × Synergy) := []
  shop_slots : List ShopSlot :=
    [{ index := 0 }, { index := 1 }, { index := 2 }, { index := 3 }, { index := 4 }]
  shop_locked : Bool := false
  can_refresh : Bool := true
  available_items : List String := []
  timestamp : ℚ := 0
  confidence : ℚ := 1
  deriving DecidableEq, Repr

/-- The `GameState.get_hero_count`: count of a named hero on board plus bench. -/
def GameState.get_hero_count (s : GameState) (hero_name : String) : ℕ :=
  (s.heroes.filter (fun h => h.name == hero_name)).length +
    (s.bench_heroes.filter (fun h => h.name == hero_name)).length

/-- The `GameState.get_total_hero_count`. -/
def GameState.get_total_hero_count (s : GameState) : ℕ := s.heroes.length

/-- The `GameState.get_max_hero_count`. -/
def GameState.get_max_hero_count (s : GameState) : ℤ := s.level

/-- The `GameState.can_add_hero`. -/
def GameState.can_add_hero (s : GameState) : Bool :=
  decide ((s.get_total_hero_count : ℤ) < s.get_max_hero_count)

/-- The `GameState.get_bench_slots_used`. -/
def GameState.get_bench_slots_used (s : GameState) : ℕ := s.bench_heroes.length

/-- The `GameState.has_bench_space`. -/
def GameState.has_bench_space (s : GameState) : Bool :=
  decide (s.bench_heroes.length < 9)

/-- The default-constructed `GameState()`. -/
def initialGameState : GameState := {}

/-! ## Action validator (`core/rules/validator.py`)

Python-level exceptions (tuple-unpacking arity errors, list index errors)
are modelled as `Except.error`; Chinese log strings are kept as constants,
with interpolated values appended where a theorem depends on them. -/

/-- The `ValidationResult` dataclass (after `__post_init__`, `warnings`
is always a list). -/
structure ValidationResult where
  is_valid : Bool
  action : Action
  modified_action : Option Action := Option.none
  error : Option String := Option.none
  warnings : List String := []
  deriving DecidableEq, Repr

/-- The `ActionValidator._validate_buy_hero`. -/
def validateBuyHero (a : Action) (s : GameState) : Except String ValidationResult :=
  if !(optStrTruthy a.target) then
    Except.ok { is_valid := false, action := a, error := some "购买动作缺少目标英雄名称" }
  else
    match a.position with
    | Option.none =>
        Except.ok { is_valid := false, action := a, error := some "购买动作缺少商店槽位信息" }
    | some pos =>
        match pos with
        | [] => Except.error "IndexError"
        | slot_index :: _ =>
            if !(0 ≤ slot_index ∧ slot_index < 5 : Bool) then
              Except.ok { is_valid := false, action := a, error := some "无效的商店槽位索引" }
            else
              match s.shop_slots.get? slot_index.toNat with
              | Option.none => Except.error "IndexError"
              | some shop_slot =>
                  if shop_slot.is_sold then
                    Except.ok { is_valid := false, action := a, error := some "商店槽位已售出" }
                  else
                    let warnings₁ :=
                      if shop_slot.hero_name != a.target then
                        ["商店槽位英雄与目标不匹配"]
                      else []
                    if s.gold < shop_slot.cost then
                      Except.ok { is_valid := false, action := a, error := some "金币不足" }
                    else
                      let warnings₂ :=
                        if !(s.has_bench_space) then
                          warnings₁ ++ ["备战席已满，购买后需要立即上场或出售"]
                        else warnings₁
                      Except.ok { is_valid := true, action := a, warnings := warnings₂ }

/-- The `ActionValidator._validate_sell_hero`. -/
def validateSellHero (a : Action) (s : GameState) : Except String ValidationResult :=
  if !(optStrTruthy a.target) then
    Except.ok { is_valid := false, action := a, error := some "出售动作缺少目标英雄名称" }
  else
    if (s.heroes ++ s.bench_heroes).any (fun h => some h.name == a.target) then
      Except.ok { is_valid := true, action := a }
    else
      Except.ok { is_valid := false, action := a, error := some "没有该名称的英雄" }

/-- The `ActionValidator._validate_move_hero`.  `row, col = action.position`
raises when the tuple arity is not 2, modelled as `Except.error`. -/
def validateMoveHero (a : Action) (s : GameState) : Except String ValidationResult :=
  if !(optStrTruthy a.target) then
    Except.ok { is_valid := false, action := a, error := some "移动动作缺少目标英雄名称" }
  else
    match a.source_position with
    | Option.none =>
        Except.ok { is_valid := false, action := a, error := some "移动动作缺少源位置" }
    | some src =>
        if src.isEmpty then
          Except.ok { is_valid := false, action := a, error := some "移动动作缺少源位置" }
        else
          match a.position with
          | Option.none =>
              Except.ok { is_valid := false, action := a, error := some "移动动作缺少目标位置" }
          | some [] =>
              Except.ok { is_valid := false, action := a, error := some "移动动作缺少目标位置" }
          | some [row, col] =>
              if !(0 ≤ row ∧ row < 4 ∧ 0 ≤ col ∧ col < 7 : Bool) then
                Except.ok { is_valid := false, action := a, error := some "目标位置超出棋盘范围" }
              else
                Except.ok { is_valid := true, action := a }
          | some _ => Except.error "ValueError"

/-- The `ActionValidator._validate_refresh_shop`. -/
def validateRefreshShop (a : Action) (s : GameState) : Except String ValidationResult :=
  if s.gold < 2 then
    Except.ok { is_valid := false, action := a, error := some "金币不足: 刷新需要 2" }
  else if s.shop_locked then
    Except.ok { is_valid := false, action := a, error := some "商店已锁定，无法刷新" }
  else
    Except.ok { is_valid := true, action := a }

/-- The `ActionValidator._validate_level_up`. -/
def validateLevelUp (a : Action) (s : GameState) : Except String ValidationResult :=
  if 9 ≤ s.level then
    Except.ok { is_valid := false, action := a, error := some "已达到最高等级" }
  else if s.gold < 4 then
    Except.ok { is_valid := false, action := a, error := some "金币不足: 升级需要 4" }
  else
    Except.ok { is_valid := true, action := a }

/-- The `ActionValidator._validate_equip_item`. -/
def validateEquipItem (a : Action) (s : GameState) : Except String ValidationResult :=
  if !(optStrTruthy a.target) then
    Except.ok { is_valid := false, action := a, error := some "装备动作缺少目标英雄名称" }
  else
    if s.heroes.any (fun h => some h.name == a.target) then
      Except.ok { is_valid := true, action := a }
    else
      Except.ok { is_valid := false, action := a, error := some "场上没有该名称的英雄" }

/-- The `f"未知的动作类型: {action.type}"` error message. -/
def unknownActionTypeMsg (t : ActionType) : String :=
  "未知的动作类型: " ++ t.value

/-- The `ActionValidator.validate`: dispatch on the per-kind validator table;
kinds absent from the table yield an invalid result with an
unknown-action-type error. -/
def validate (a : Action) (s : GameState) : Except String ValidationResult :=
  match a.type with
  | ActionType.buy_hero => validateBuyHero a s
  | ActionType.sell_hero => validateSellHero a s
  | ActionType.move_hero => validateMoveHero a s
  | ActionType.refresh_shop => validateRefreshShop a s
  | ActionType.level_up => validateLevelUp a s
  | ActionType.equip_item => validateEquipItem a s
  | ActionType.wait => Except.ok { is_valid := true, action := a }
  | ActionType.none => Except.ok { is_valid := true, action := a }
  | t => Except.ok { is_valid := false, action := a, error := some (unknownActionTypeMsg t) }

/-- The BuyHero repair loop of `ActionValidator._try_fix_action`:
first shop slot whose `hero_name == action.target` (Python `==` on
optionals) and not sold. -/
def tryFixBuy (a : Action) : List ShopSlot → ℕ → Option Action
  | [], _ => Option.none
  | slot :: rest, i =>
      if slot.hero_name == a.target ∧ slot.is_sold = false then
        some { type := a.type
               target := a.target
               position := some [(i : ℤ)]
               reasoning := a.reasoning
               confidence := a.confidence * (9/10) }
      else
        tryFixBuy a rest (i + 1)

/-- The `ActionValidator._try_fix_action`. -/
def tryFixAction (a : Action) (s : GameState) : Except String (Option Action) :=
  if a.type = ActionType.buy_hero then
    Except.ok (tryFixBuy a s.shop_slots 0)
  else if a.type = ActionType.move_hero then
    match a.position with
    | Option.none => Except.ok Option.none
    | some [] => Except.ok Option.none
    | some [row, col] =>
        Except.ok (some
          { type := a.type
            target := a.target
            position := some [max 0 (min row 3), max 0 (min col 6)]
            source_position := a.source_position
            reasoning := a.reasoning
            confidence := a.confidence * (9/10) })
    | some _ => Except.error "ValueError"
  else
    Except.ok Option.none

/-- The `ActionValidator.validate_and_fix` (exceptions from `validate` or the
fixer propagate). -/
def validate_and_fix (a : Action) (s : GameState) : Except String Action :=
  match validate a s with
  | Except.error e => Except.error e
  | Except.ok result =>
      if result.is_valid then
        Except.ok (result.modified_action.getD result.action)
      else
        match tryFixAction a s with
        | Except.error e => Except.error e
        | Except.ok (some f) => Except.ok f
        | Except.ok Option.none =>
            Except.ok (Action.none_action
              ("动作验证失败: " ++ (match result.error with
                | some e => e
                | Option.none => "None")))

/-! ## Quick-action rule engine (`core/rules/quick_actions.py`) -/

/-- The `QuickActionRule` dataclass. -/
structure QuickActionRule where
  name : String
  condition : GameState → Bool
  action_factory : GameState → Action
  priority : ActionPriority := ActionPriority.high
  description : String := ""

/-- The `QuickActionEngine._should_refresh`: gold at least 4 and no named,
unsold shop slot carrying a hero already owned on board or bench.
(Python truthiness: an empty-string slot name is skipped.) -/
def shouldRefresh (s : GameState) : Bool :=
  if s.gold < 4 then false
  else
    s.shop_slots.all (fun slot =>
      if optStrTruthy slot.hero_name ∧ slot.is_sold = false then
        (s.heroes ++ s.bench_heroes).all (fun h => !(some h.name == slot.hero_name))
      else true)

/-- The `QuickActionEngine._can_complete_three_star`: the first named, unsold
slot whose hero is owned exactly twice with cost ≤ 3 decides the answer
(affordability of that slot), mirroring the source's early return. -/
def canCompleteThreeStar (s : GameState) : Bool :=
  let rec go : List ShopSlot → Bool
    | [] => false
    | slot :: rest =>
        match slot.hero_name with
        | some n =>
            if !(n.isEmpty) ∧ slot.is_sold = false ∧ s.get_hero_count n = 2 ∧
                slot.cost ≤ 3 then
              decide (slot.cost ≤ s.gold)
            else go rest
        | Option.none => go rest
  go s.shop_slots

/-- The BuyHero search of `_create_buy_action_for_three_star`. -/
def createBuyActionForThreeStar (s : GameState) : Action :=
  let rec go : List ShopSlot → ℕ → Action
    | [], _ => Action.none_action "没有可购买的三星英雄"
    | slot :: rest, i =>
        match slot.hero_name with
        | some n =>
            if !(n.isEmpty) ∧ slot.is_sold = false ∧ s.get_hero_count n = 2 ∧
                slot.cost ≤ 3 then
              Action.buy_hero n (i : ℤ) ("购买 " ++ n ++ " 完成三星")
            else go rest (i + 1)
        | Option.none => go rest (i + 1)
  go s.shop_slots 0

/-- The `QuickActionEngine._has_needed_hero_in_shop`. -/
def hasNeededHeroInShop (s : GameState) : Bool :=
  s.shop_slots.any (fun slot =>
    optStrTruthy slot.hero_name && !slot.is_sold && decide (slot.cost ≤ s.gold))

/-- The `QuickActionEngine._create_buy_needed_hero_action`. -/
def createBuyNeededHeroAction (s : GameState) : Action :=
  let rec go : List ShopSlot → ℕ → Action
    | [], _ => Action.none_action "没有可购买的英雄"
    | slot :: rest, i =>
        match slot.hero_name with
        | some n =>
            if !(n.isEmpty) ∧ slot.is_sold = false ∧ slot.cost ≤ s.gold then
              Action.buy_hero n (i : ℤ) ("购买 " ++ n ++ " 增强阵容")
            else go rest (i + 1)
        | Option.none => go rest (i + 1)
  go s.shop_slots 0

/-- The `QuickActionEngine._has_sellable_hero`: some bench hero occurs exactly
once on the bench. -/
def hasSellableHero (s : GameState) : Bool :=
  s.bench_heroes.any (fun h =>
    decide ((s.bench_heroes.filter (fun h2 => h2.name == h.name)).length = 1))

/-- The `QuickActionEngine._create_sell_action`: the first bench hero whose
name has not occurred earlier in the bench list (running count hits 1). -/
def createSellAction (s : GameState) : Action :=
  let rec go : List Hero → List Hero → ℕ → Action
    | [], _, _ => Action.none_action "没有可出售的英雄"
    | h :: rest, seen, i =>
        if (seen.filter (fun h2 => h2.name == h.name)).length = 0 then
          Action.sell_hero h.name [(i : ℤ), -1] ("出售单例 " ++ h.name ++ " 腾出空间")
        else go rest (seen ++ [h]) (i + 1)
  go s.bench_heroes [] 0

/-- Rule 1 `auto_free_refresh` as registered in `_register_default_rules`. -/
def autoFreeRefreshRule : QuickActionRule :=
  { name := "auto_free_refresh"
    condition := fun s => s.can_refresh && decide (2 ≤ s.gold) && shouldRefresh s
    action_factory := fun _ => Action.refresh_shop "规则触发：需要刷新商店"
    priority := ActionPriority.normal
    description := "自动刷新商店" }

/-- Rule 2 `auto_buy_for_three_star`. -/
def autoBuyForThreeStarRule : QuickActionRule :=
  { name := "auto_buy_for_three_star"
    condition := canCompleteThreeStar
    action_factory := createBuyActionForThreeStar
    priority := ActionPriority.high
    description := "购买能合成三星的英雄" }

/-- Rule 3 `emergency_level_up`. -/
def emergencyLevelUpRule : QuickActionRule :=
  { name := "emergency_level_up"
    condition := fun s => decide (s.hp ≤ 30 ∧ 4 ≤ s.gold ∧ s.level < 9)
    action_factory := fun _ => Action.level_up "规则触发：血量低，紧急升级"
    priority := ActionPriority.critical
    description := "血量低时紧急升级" }

/-- Rule 4 `auto_buy_needed_hero`. -/
def autoBuyNeededHeroRule : QuickActionRule :=
  { name := "auto_buy_needed_hero"
    condition := fun s => s.can_add_hero && decide (1 ≤ s.gold) && hasNeededHeroInShop s
    action_factory := createBuyNeededHeroAction
    priority := ActionPriority.high
    description := "自动购买需要的英雄" }

/-- Rule 5 `auto_sell_extra_hero`. -/
def autoSellExtraHeroRule : QuickActionRule :=
  { name := "auto_sell_extra_hero"
    condition := fun s => !(s.has_bench_space) && hasSellableHero s
    action_factory := createSellAction
    priority := ActionPriority.low
    description := "自动出售多余英雄" }

/-- The default rules, in registration order. -/
def defaultRules : List QuickActionRule :=
  [autoFreeRefreshRule, autoBuyForThreeStarRule, emergencyLevelUpRule,
   autoBuyNeededHeroRule, autoSellExtraHeroRule]

/-- Stable insertion (earlier elements precede later ones of equal
priority), used to model Python's stable `list.sort(..., reverse=True)`. -/
def insertByPriorityDesc (r : QuickActionRule) :
    List QuickActionRule → List QuickActionRule
  | [] => [r]
  | r2 :: rest =>
      if r2.priority.value ≤ r.priority.value then r :: r2 :: rest
      else r2 :: insertByPriorityDesc r rest

/-- Stable sort by priority value descending. -/
def sortRulesDesc (rules : List QuickActionRule) : List QuickActionRule :=
  rules.foldr insertByPriorityDesc []

/-- The action a matched rule yields: the factory's action with
`metadata["rule_name"] = rule.name` added. -/
def ruleOutput (r : QuickActionRule) (s : GameState) : Action :=
  let a := r.action_factory s
  { a with metadata := a.metadata ++ [("rule_name", MetaVal.str r.name)] }

/-- The `QuickActionEngine.check_quick_actions` with all default rules enabled:
first rule (in descending-priority, stable order) whose condition holds;
the produced action gets `metadata["rule_name"]`.  (The rule conditions and
factories in this model are total, so the source's per-rule exception
handler is never exercised.) -/
def checkQuickActions (s : GameState) : Option Action :=
  let rec go : List QuickActionRule → Option Action
    | [] => Option.none
    | r :: rest => if r.condition s then some (ruleOutput r s) else go rest
  go (sortRulesDesc defaultRules)

/-! ## Hybrid decision engine, rule phase (`core/rules/decision_engine.py`)

`HybridDecisionEngine.decide` first evaluates the quick-action engine and
validates the produced action; a non-None validated action is returned as a
rule决策 before any VLM call.  Wall-clock latency is abstracted as 0. -/

/-- The `DecisionResult` dataclass. -/
structure DecisionResult where
  action : Action
  source : String
  llm_analysis : Option String := Option.none
  confidence : ℚ := 1
  latency_ms : ℤ := 0
  deriving DecidableEq, Repr

/-- The rule phase of `HybridDecisionEngine.decide` (step 1, with
`force_llm = False`): `some dr` when a rule decision is returned,
`none` when control would fall through to the VLM / fallback path.
Validator exceptions propagate. -/
def decideRulePhase (s : GameState) : Except String (Option DecisionResult) :=
  match checkQuickActions s with
  | Option.none => Except.ok Option.none
  | some quick_action =>
      match validate_and_fix quick_action s with
      | Except.error e => Except.error e
      | Except.ok validated =>
          if validated.type ≠ ActionType.none then
            Except.ok (some { action := validated, source := "rule", confidence := 1,
                              latency_ms := 0 })
          else
            Except.ok Option.none

/-! ## Recognition-driven state update (`GameState.update_from_recognition`)

The recognition engine's `RecognizedEntity` and the single bulk mutator.
Python mutates `self` in place and may raise (pydantic `ValidationError`
from `Hero(...)`); the model returns the state as mutated up to the raise
together with `some errorMessage`. -/

/-- The `RecognizedEntity` dataclass of `core/vision/recognition_engine.py`
(the fields `update_from_recognition` reads). -/
structure RecognizedEntity where
  entity_type : String
  entity_name : String
  confidence : ℚ := 1
  method : String := "template"
  bbox : ℤ × ℤ × ℤ × ℤ := (0, 0, 0, 0)
  slot_index : Option ℤ := Option.none
  deriving DecidableEq, Repr

/-- The `GameRegions.CELL_WIDTH`. -/
def CELL_WIDTH : ℤ := 160

/-- The `GameRegions.CELL_HEIGHT`. -/
def CELL_HEIGHT : ℤ := 160

/-- The `GameRegions.BOARD.x`. -/
def BOARD_X : ℤ := 240

/-- The `GameRegions.BOARD.y`. -/
def BOARD_Y : ℤ := 200

/-- Board position computed for a board entity (`//` is Python floor
division, `Int.fdiv`). -/
def boardPosition (bbox : ℤ × ℤ × ℤ × ℤ) : Option (ℤ × ℤ) :=
  let col := (bbox.1 - BOARD_X).fdiv CELL_WIDTH
  let row := (bbox.2.1 - BOARD_Y).fdiv CELL_HEIGHT
  if 0 ≤ row ∧ row ≤ 3 ∧ 0 ≤ col ∧ col ≤ 6 then some (row, col) else Option.none

/-- Per-slot shop update: a recognized entity fills the slot, `None` marks
it sold. -/
def updateShopSlot (slot : ShopSlot) : Option RecognizedEntity → ShopSlot
  | some e => { slot with hero_name := some e.entity_name, cost := 0, is_sold := false }
  | Option.none => { slot with hero_name := Option.none, cost := 0, is_sold := true }

/-- The shop loop: entity `i` updates `shop_slots[i]` when `i` is in
range; extra entities are ignored, remaining slots untouched. -/
def updateShopSlots : List ShopSlot → List (Option RecognizedEntity) → List ShopSlot
  | slots, [] => slots
  | [], _ => []
  | slot :: slots, e :: es => updateShopSlot slot e :: updateShopSlots slots es

/-- The board refill loop: heroes are constructed with `cost=0, stars=1`;
pydantic rejects `cost=0` (declared `ge=1`), so the first hero entity
raises, leaving the heroes accumulated so far (second component is the
raised error, if any). -/
def refillBoard : List RecognizedEntity → List Hero × Option String
  | [] => ([], Option.none)
  | e :: es =>
      if e.entity_type == "hero" then
        match mkHero e.entity_name 0 1 1 (boardPosition e.bbox) with
        | Except.error msg => ([], some msg)
        | Except.ok h =>
            let (hs, err) := refillBoard es
            (h :: hs, err)
      else refillBoard es

/-- The bench refill loop (`cost=0, stars=1, position=None`). -/
def refillBench : List (Option RecognizedEntity) → List Hero × Option String
  | [] => ([], Option.none)
  | Option.none :: es => refillBench es
  | some e :: es =>
      if e.entity_type == "hero" then
        match mkHero e.entity_name 0 1 1 Option.none with
        | Except.error msg => ([], some msg)
        | Except.ok h =>
            let (hs, err) := refillBench es
            (h :: hs, err)
      else refillBench es

/-- The synergy loop: mark each listed synergy active, creating missing
entries with `count=1`. -/
def updateSynergies (syn : List (String × Synergy)) :
    List RecognizedEntity → List (String × Synergy)
  | [] => syn
  | e :: es =>
      if e.entity_type == "synergy" then
        let syn2 :=
          if syn.any (fun p => p.1 == e.entity_name) then
            syn.map (fun p =>
              if p.1 == e.entity_name then (p.1, { p.2 with is_active := true }) else p)
          else
            syn ++ [(e.entity_name,
              { name := e.entity_name, count := 1, is_active := true })]
        updateSynergies syn2 es
  else updateSynergies syn es

/-- The `if shop_entities is not None` facet. -/
def applyShopFacet (s : GameState) :
    Option (List (Option RecognizedEntity)) → GameState
  | Option.none => s
  | some es => { s with shop_slots := updateShopSlots s.shop_slots es }

/-- The `if board_entities is not None` facet (clear then refill; the
second component is a pydantic raise). -/
def applyBoardFacet (s : GameState) :
    Option (List RecognizedEntity) → GameState × Option String
  | Option.none => (s, Option.none)
  | some es => ({ s with heroes := (refillBoard es).1 }, (refillBoard es).2)

/-- The `if bench_entities is not None` facet. -/
def applyBenchFacet (s : GameState) :
    Option (List (Option RecognizedEntity)) → GameState × Option String
  | Option.none => (s, Option.none)
  | some es => ({ s with bench_heroes := (refillBench es).1 }, (refillBench es).2)

/-- The `if synergy_entities is not None` facet. -/
def applySynergyFacet (s : GameState) : Option (List RecognizedEntity) → GameState
  | Option.none => s
  | some es => { s with synergies := updateSynergies s.synergies es }

/-- The `if item_entities is not None` facet. -/
def applyItemsFacet (s : GameState) : Option (List RecognizedEntity) → GameState
  | Option.none => s
  | some es =>
      { s with available_items :=
          (es.filter (fun e => e.entity_type == "item")).map (fun e => e.entity_name) }

/-- The `GameState.update_from_recognition`.  Facets are applied in source
order (shop, board, bench, synergies, items); a pydantic raise aborts the
remaining facets, leaving the state mutated so far, and is reported in
the second component. -/
def update_from_recognition (s : GameState)
    (shop_entities : Option (List (Option RecognizedEntity)) := Option.none)
    (board_entities : Option (List RecognizedEntity) := Option.none)
    (bench_entities : Option (List (Option RecognizedEntity)) := Option.none)
    (synergy_entities : Option (List RecognizedEntity) := Option.none)
    (item_entities : Option (List RecognizedEntity) := Option.none) :
    GameState × Option String :=
  match applyBoardFacet (applyShopFacet s shop_entities) board_entities with
  | (s2, some err) => (s2, some err)
  | (s2, Option.none) =>
      match applyBenchFacet s2 bench_entities with
      | (s3, some err) => (s3, some err)
      | (s3, Option.none) =>
          (applyItemsFacet (applySynergyFacet s3 synergy_entities) item_entities,
           Option.none)

/-! ## VLM client guard (`core/llm/client.py`, `LLMClient._guarded_call`)

One backend attempt is abstracted by its observable outcome: a returned
string, a wall-clock timeout (`asyncio.TimeoutError` from
`asyncio.wait_for(..., timeout=config.timeout)`), or another exception. -/

/-- Outcome of a single backend attempt. -/
inductive AttemptResult where
  | ok (s : String)
  | timeout
  | err (e : String)
  deriving DecidableEq, Repr

/-- Outcome of one `_guarded_call`. -/
inductive CallOutcome where
  | ok (s : String)
  | budgetExhausted
  | timedOut
  | failed (e : String)
  deriving DecidableEq, Repr

/-- Whether a call returned successfully. -/
def CallOutcome.isOk : CallOutcome → Bool
  | .ok _ => true
  | _ => false

/-- Result of one guarded call: outcome, the `_call_count` afterwards, and
how many backend attempts were made. -/
structure CallResult where
  outcome : CallOutcome
  calls_used : ℕ
  attempts_made : ℕ
  deriving DecidableEq, Repr

/-- The fields of `LLMConfig` that `_guarded_call` reads. -/
structure LLMConfig where
  timeout : ℚ := 30
  max_retries : ℕ := 2
  budget_per_session : ℕ := 50
  deriving DecidableEq, Repr

/-- The retry loop of `_guarded_call`: `attempts i` is the outcome of the
`i`-th backend attempt; success increments `_call_count` and returns; a
timeout re-raises immediately; other errors are remembered and retried;
after the last attempt the last error is raised. -/
def retryLoop (attempts : ℕ → AttemptResult) (count : ℕ) :
    ℕ → ℕ → Option String → CallResult
  | i, 0, lastErr => ⟨CallOutcome.failed (lastErr.getD ""), count, i⟩
  | i, n + 1, lastErr =>
      match attempts i with
      | AttemptResult.ok s => ⟨CallOutcome.ok s, count + 1, i + 1⟩
      | AttemptResult.timeout => ⟨CallOutcome.timedOut, count, i + 1⟩
      | AttemptResult.err e => retryLoop attempts count (i + 1) n (some e)

/-- The `LLMClient._guarded_call`: budget gate, then up to
`max_retries + 1` attempts. -/
def guardedCall (cfg : LLMConfig) (count : ℕ) (attempts : ℕ → AttemptResult) :
    CallResult :=
  if cfg.budget_per_session ≤ count then
    ⟨CallOutcome.budgetExhausted, count, 0⟩
  else
    retryLoop attempts count 0 (cfg.max_retries + 1) Option.none

/-- The outcomes of a session: a sequence of guarded calls sharing the
client's `_call_count`. -/
def sessionOutcomes (cfg : LLMConfig) :
    List (ℕ → AttemptResult) → ℕ → List CallOutcome
  | [], _ => []
  | c :: rest, count =>
      let r := guardedCall cfg count c
      r.outcome :: sessionOutcomes cfg rest r.calls_used

/-! ## Coordinate transform (`core/geometry/transform.py`)

Python float arithmetic on window geometry is modelled exactly over `ℚ`
(all inputs are integers and the operations are ratios, products and
truncations). -/

/-- The `CoordinateTransform` after `__post_init__`: `content_rect` is never
`None`. -/
structure CoordinateTransform where
  base_size : ℤ × ℤ
  current_size : ℤ × ℤ
  content_rect : ℤ × ℤ × ℤ × ℤ
  deriving DecidableEq, Repr

/-- The `infer_letterbox_content_rect` (sizes already validated positive by
the callers). -/
def inferLetterboxContentRect (base_size current_size : ℤ × ℤ) : ℤ × ℤ × ℤ × ℤ :=
  let base_w := base_size.1
  let base_h := base_size.2
  let cur_w := current_size.1
  let cur_h := current_size.2
  let scale : ℚ := min ((cur_w : ℚ) / base_w) ((cur_h : ℚ) / base_h)
  let content_w := max 1 (pytrunc (base_w * scale))
  let content_h := max 1 (pytrunc (base_h * scale))
  let offset_x := max 0 ((cur_w - content_w).fdiv 2)
  let offset_y := max 0 ((cur_h - content_h).fdiv 2)
  (offset_x, offset_y, content_w, content_h)

/-- The content rect used by `__post_init__`: the given one, or the
inferred letterbox. -/
def contentRectOrInferred (base_size current_size : ℤ × ℤ)
    (content_rect : Option (ℤ × ℤ × ℤ × ℤ)) : ℤ × ℤ × ℤ × ℤ :=
  content_rect.getD (inferLetterboxContentRect base_size current_size)

/-- Constructor plus `__post_init__` validation: sizes positive, rect
inferred when absent, rect non-negative with positive extent and inside
the current size; otherwise `ValueError`. -/
def mkCoordinateTransform (base_size current_size : ℤ × ℤ)
    (content_rect : Option (ℤ × ℤ × ℤ × ℤ) := Option.none) :
    Except String CoordinateTransform :=
  if base_size.1 ≤ 0 ∨ base_size.2 ≤ 0 then Except.error "ValueError: base_size"
  else if current_size.1 ≤ 0 ∨ current_size.2 ≤ 0 then
    Except.error "ValueError: current_size"
  else if (contentRectOrInferred base_size current_size content_rect).1 < 0 ∨
      (contentRectOrInferred base_size current_size content_rect).2.1 < 0 ∨
      (contentRectOrInferred base_size current_size content_rect).2.2.1 ≤ 0 ∨
      (contentRectOrInferred base_size current_size content_rect).2.2.2 ≤ 0 then
    Except.error "ValueError: content_rect"
  else if current_size.1 < (contentRectOrInferred base_size current_size content_rect).1 +
        (contentRectOrInferred base_size current_size content_rect).2.2.1 ∨
      current_size.2 < (contentRectOrInferred base_size current_size content_rect).2.1 +
        (contentRectOrInferred base_size current_size content_rect).2.2.2 then
    Except.error "ValueError: content_rect bounds"
  else
    Except.ok ⟨base_size, current_size,
      contentRectOrInferred base_size current_size content_rect⟩

/-- The `CoordinateTransform.scale_x = content_w / base_w`. -/
def CoordinateTransform.scale_x (t : CoordinateTransform) : ℚ :=
  (t.content_rect.2.2.1 : ℚ) / t.base_size.1

/-- The `CoordinateTransform.scale_y = content_h / base_h`. -/
def CoordinateTransform.scale_y (t : CoordinateTransform) : ℚ :=
  (t.content_rect.2.2.2 : ℚ) / t.base_size.2

/-- The `CoordinateTransform.offset_x`. -/
def CoordinateTransform.offset_x (t : CoordinateTransform) : ℤ := t.content_rect.1

/-- The `CoordinateTransform.offset_y`. -/
def CoordinateTransform.offset_y (t : CoordinateTransform) : ℤ := t.content_rect.2.1

/-- The `CoordinateTransform.map_point`: `int(offset + coord·scale)`. -/
def CoordinateTransform.map_point (t : CoordinateTransform) (p : ℤ × ℤ) : ℤ × ℤ :=
  (pytrunc ((t.offset_x : ℚ) + p.1 * t.scale_x),
   pytrunc ((t.offset_y : ℚ) + p.2 * t.scale_y))

/-- The `CoordinateTransform.map_size`: each dimension clamped to at least 1. -/
def CoordinateTransform.map_size (t : CoordinateTransform) (w h : ℤ) : ℤ × ℤ :=
  (max 1 (pytrunc (w * t.scale_x)), max 1 (pytrunc (h * t.scale_y)))

/-- The `CoordinateTransform.unmap_point`: raises `ZeroDivisionError` when a
scale factor is zero. -/
def CoordinateTransform.unmap_point (t : CoordinateTransform) (c : ℤ × ℤ) :
    Except String (ℤ × ℤ) :=
  if t.scale_x = 0 ∨ t.scale_y = 0 then
    Except.error "ZeroDivisionError"
  else
    Except.ok (pytrunc (((c.1 - t.offset_x : ℤ) : ℚ) / t.scale_x),
               pytrunc (((c.2 - t.offset_y : ℤ) : ℚ) / t.scale_y))

/-- The pair `unmap_point` returns when the scale factors are nonzero. -/
def unmapValue (t : CoordinateTransform) (c : ℤ × ℤ) : ℤ × ℤ :=
  (pytrunc (((c.1 - t.offset_x : ℤ) : ℚ) / t.scale_x),
   pytrunc (((c.2 - t.offset_y : ℤ) : ℚ) / t.scale_y))

/-! ## Coordinate scaler and UI regions
(`core/coordinate_scaler.py`, `core/vision/regions.py`) -/

/-- The `Resolution` dataclass. -/
structure Resolution where
  width : ℤ
  height : ℤ
  deriving DecidableEq, Repr

/-- The `CoordinateScaler.REFERENCE = Resolution.HD_1080()`. -/
def REFERENCE : Resolution := ⟨1920, 1080⟩

/-- The `CoordinateScaler`: target resolution plus the derived scale factors. -/
structure CoordinateScaler where
  target : Resolution
  deriving DecidableEq, Repr

/-- The `CoordinateScaler._scale_x`. -/
def CoordinateScaler.scale_x (sc : CoordinateScaler) : ℚ :=
  (sc.target.width : ℚ) / REFERENCE.width

/-- The `CoordinateScaler._scale_y`. -/
def CoordinateScaler.scale_y (sc : CoordinateScaler) : ℚ :=
  (sc.target.height : ℚ) / REFERENCE.height

/-- The `CoordinateScaler.scale_point`: integer truncation, no clamping. -/
def CoordinateScaler.scale_point (sc : CoordinateScaler) (x y : ℤ) : ℤ × ℤ :=
  (pytrunc (x * sc.scale_x), pytrunc (y * sc.scale_y))

/-- The `CoordinateScaler.scale_size`: integer truncation, no clamping — in
contrast with `CoordinateTransform.map_size`. -/
def CoordinateScaler.scale_size (sc : CoordinateScaler) (width height : ℤ) : ℤ × ℤ :=
  (pytrunc (width * sc.scale_x), pytrunc (height * sc.scale_y))

/-- The `CoordinateScaler.scale_rect`. -/
def CoordinateScaler.scale_rect (sc : CoordinateScaler) (x y width height : ℤ) :
    ℤ × ℤ × ℤ × ℤ :=
  let p := sc.scale_point x y
  let d := sc.scale_size width height
  (p.1, p.2, d.1, d.2)

/-- The `UIRegion` frozen dataclass. -/
structure UIRegion where
  name : String
  x : ℤ
  y : ℤ
  width : ℤ
  height : ℤ
  deriving DecidableEq, Repr

/-- The `UIRegion.scale`: scale through a `CoordinateScaler`. -/
def UIRegion.scale (r : UIRegion) (sc : CoordinateScaler) : UIRegion :=
  let q := sc.scale_rect r.x r.y r.width r.height
  { name := r.name, x := q.1, y := q.2.1, width := q.2.2.1, height := q.2.2.2 }

/-! ## Session-loop safety gates (`main.py`)

State machine for `JinchanchanAssistant._game_loop` restricted to the
observables of the safety gates: the sliding-window deque
`_action_timestamps`, `_click_count`, `_stats["safety_blocks"]`, plus a
ghost trace `history` of all recorded execution times and the last
observed monotonic clock.  `time.monotonic()` is modelled as a
non-decreasing rational. -/

/-- The safety configuration (`dry_run`, `max_actions_per_min`,
`max_clicks`); `none` models a Python `None` limit. -/
structure SafetyConfig where
  dry_run : Bool
  max_actions_per_min : Option ℕ
  max_clicks : Option ℕ
  deriving DecidableEq, Repr

/-- Loop state: deque of execution timestamps (front oldest),
click counter, safety-block counter, ghost execution history, clock. -/
structure LoopState where
  timestamps : List ℚ
  click_count : ℕ
  safety_blocks : ℕ
  history : List ℚ
  clock : ℚ
  deriving DecidableEq, Repr

/-- The initial loop state. -/
def initLoopState : LoopState := ⟨[], 0, 0, [], 0⟩

/-- The eviction `while` loop: pop timestamps from the front while the
front is more than 60 seconds old. -/
def evictOld (now : ℚ) : List ℚ → List ℚ
  | [] => []
  | t :: ts => if 60 < now - t then evictOld now ts else t :: ts

/-- The click-cap check of `_can_execute_live_action`. -/
def clickGate (cfg : SafetyConfig) (st : LoopState) : Bool × LoopState :=
  match cfg.max_clicks with
  | some c => if 0 < c ∧ c ≤ st.click_count then (false, st) else (true, st)
  | Option.none => (true, st)

/-- The `JinchanchanAssistant._can_execute_live_action`: in dry-run always
allowed; otherwise evict the 60-second window (a mutation that persists
even when blocked) and check rate limit then click cap. -/
def canExecuteLiveAction (cfg : SafetyConfig) (now : ℚ) (st : LoopState) :
    Bool × LoopState :=
  if cfg.dry_run then (true, st)
  else
    match cfg.max_actions_per_min with
    | some m =>
        if 0 < m then
          let st1 := { st with timestamps := evictOld now st.timestamps }
          if m ≤ st1.timestamps.length then (false, st1)
          else clickGate cfg st1
        else clickGate cfg st
    | Option.none => clickGate cfg st

/-- The `JinchanchanAssistant._record_live_action_execution` (the ghost
history records the same timestamp). -/
def recordLiveActionExecution (cfg : SafetyConfig) (now : ℚ) (st : LoopState) :
    LoopState :=
  if cfg.dry_run then st
  else
    { st with timestamps := st.timestamps ++ [now]
              click_count := st.click_count + 1
              history := st.history ++ [now] }

/-- One tick's effect on the safety state: either no execution attempt
(NONE action, dry-run skip, recognition failure, timeout stop — the
counters are untouched), or an execution attempt at gate time `now`
recorded at time `now2 ≥ now` (the second `time.monotonic()` call). -/
inductive TickInput where
  | skip (now : ℚ)
  | attempt (now now2 : ℚ)

/-- The execution gate of `_game_loop` for a non-NONE action in live mode:
blocked attempts only bump `safety_blocks`; allowed attempts are recorded
before the executor runs. -/
def tick (cfg : SafetyConfig) (st : LoopState) : TickInput → LoopState
  | TickInput.skip now => { st with clock := now }
  | TickInput.attempt now now2 =>
      let gate := canExecuteLiveAction cfg now st
      if gate.1 then
        { recordLiveActionExecution cfg now2 gate.2 with clock := now2 }
      else
        { gate.2 with safety_blocks := gate.2.safety_blocks + 1, clock := now }

/-- Validity of a tick input: `time.monotonic()` never decreases. -/
def ValidInput (st : LoopState) : TickInput → Prop
  | TickInput.skip now => st.clock ≤ now
  | TickInput.attempt now now2 => st.clock ≤ now ∧ now ≤ now2

/-- Reachable safety states of the session loop. -/
inductive Reachable (cfg : SafetyConfig) : LoopState → Prop where
  | init : Reachable cfg initLoopState
  | step {st : LoopState} (inp : TickInput) :
      Reachable cfg st → ValidInput st inp → Reachable cfg (tick cfg st inp)

/-- Number of recorded executions inside the trailing 60-second window
ending at `t`. -/
def windowCount (t : ℚ) (l : List ℚ) : ℕ :=
  (l.filter (fun e => decide (t - 60 ≤ e) && decide (e ≤ t))).length

/-- The scaler for a 960×540 window. -/
def tinyRegion : UIRegion := ⟨"tiny", 0, 0, 1, 1⟩

/-- An action of kind `LockShop` used as witness input. -/
def smallScaler : CoordinateScaler := ⟨⟨960, 540⟩⟩

/-- A state whose shop offers 剑魔 in slot 0 for 3 gold while the player
has 0 gold. -/
def lockShopAction : Action := { type := ActionType.lock_shop }

/-- A BuyHero action that names 剑魔 but carries no shop-slot position. -/
def poorBuyerState : GameState :=
  { gold := 0
    shop_slots :=
      [{ index := 0, hero_name := some "剑魔", cost := 3 }, { index := 1 },
       { index := 2 }, { index := 3 }, { index := 4 }] }

/-- The repaired action `_try_fix_action` produces for it. -/
def slotlessBuyAction : Action :=
  { type := ActionType.buy_hero, target := some "剑魔" }

/-- The action emitted by the emergency rule
(`Action.level_up` plus the rule-name metadata): its priority is High. -/
def repairedBuyAction : Action :=
  { type := ActionType.buy_hero, target := some "剑魔", position := some [0],
    confidence := 9/10 }

/-- The literal scenario state `GameState{hp=20, gold=10, level=4}`. -/
def emergencyLevelUpAction : Action :=
  { type := ActionType.level_up
    priority := ActionPriority.high
    reasoning := "规则触发：血量低，紧急升级"
    metadata := [("rule_name", MetaVal.str "emergency_level_up")] }

/-- The claimed condition, as the spec words it ("no shop slot matches an owned hero"): no
non-sold slot's hero name equals the name of a hero on board or bench. -/
def emergencyScenarioState : GameState := { hp := 20, gold := 10, level := 4 }

/-- The same condition as the code checks it: slots whose name is falsy
(None or empty) are skipped. -/
def noShopOwnedMatch (s : GameState) : Prop :=
  ∀ slot ∈ s.shop_slots, slot.is_sold = false →
    ∀ h ∈ s.heroes ++ s.bench_heroes, slot.hero_name ≠ some h.name

/-- A state with 3 gold, refresh allowed, empty shop, nothing owned. -/
def noOwnedShopMatchCode (s : GameState) : Prop :=
  ∀ slot ∈ s.shop_slots, optStrTruthy slot.hero_name = true → slot.is_sold = false →
    ∀ h ∈ s.heroes ++ s.bench_heroes, some h.name ≠ slot.hero_name

/-- The action emitted by the `auto_free_refresh` rule. -/
def threeGoldState : GameState := { gold := 3 }

/-- A state where only `auto_free_refresh` fires: 5 gold, refresh
allowed, empty shop (nothing affordable to buy, nothing owned). -/
def refreshShopRuleAction : Action :=
  { type := ActionType.refresh_shop
    priority := ActionPriority.normal
    reasoning := "规则触发：需要刷新商店"
    metadata := [("rule_name", MetaVal.str "auto_free_refresh")] }

/-- The concrete transform used as witness: explicit centered content
rect in a 2000×1200 window. -/
def fiveGoldState : GameState := { gold := 5 }

/-- How the fields relevant to the invariants may evolve across a whole
recognition update: level untouched, heroes/bench kept or cleared, shop
slots kept or rewritten per-slot. -/
def witnessTransform : CoordinateTransform :=
  ⟨(1920, 1080), (2000, 1200), (40, 60, 1920, 1080)⟩

/-- The evolution a post-shop facet may make: shop slots untouched. -/
def FieldEvo (s t : GameState) : Prop :=
  t.level = s.level ∧ (t.heroes = s.heroes ∨ t.heroes = []) ∧
  (t.bench_heroes = s.bench_heroes ∨ t.bench_heroes = []) ∧
  (t.shop_slots = s.shop_slots ∨
    ∃ es, t.shop_slots = updateShopSlots s.shop_slots es)

/-- Shop entities used in the C6 witness. -/
def StableEvo (s t : GameState) : Prop :=
  t.level = s.level ∧ (t.heroes = s.heroes ∨ t.heroes = []) ∧
  (t.bench_heroes = s.bench_heroes ∨ t.bench_heroes = []) ∧
  t.shop_slots = s.shop_slots

/-- Board entities used in the C6 witness (a hero entity, whose
construction raises). -/
def witnessShopEntities : List (Option RecognizedEntity) :=
  [some { entity_type := "hero", entity_name := "亚索" },
   Option.none, Option.none, Option.none, Option.none]

/-- A live-mode safety configuration with positive limits. -/
def witnessBoardEntities : List RecognizedEntity :=
  [{ entity_type := "hero", entity_name := "亚索", bbox := (250, 210, 300, 260) }]

/-- The inductive safety invariant of the loop state: click cap honoured,
the deque is a suffix of the ghost history whose dropped prefix is over
60 seconds old, and every trailing 60-second window holds at most `a`
executions. -/
def liveCfg (a c : ℕ) : SafetyConfig := ⟨false, some a, some c⟩

def LoopInv (a c : ℕ) (st : LoopState) : Prop :=
  st.click_count ≤ c ∧
  (∃ dropped, st.history = dropped ++ st.timestamps ∧
    ∀ t ∈ dropped, t + 60 < st.clock) ∧
  ∀ t : ℚ, windowCount t st.history ≤ a

/-! # Theorems -/

/-- C10: `UIRegion.scale` goes through `CoordinateScaler.scale_size`,
which truncates without clamping: a 1×1 region scaled to a 960×540 target
(smaller than the 1920×1080 reference) collapses to width 0 and height 0,
whereas `CoordinateTransform.map_size` always returns dimensions ≥ 1. -/

theorem uiregion_scale_truncates_without_clamping :
    (0 < tinyRegion.width ∧ 0 < tinyRegion.height ∧
      smallScaler.target.width < REFERENCE.width ∧
      smallScaler.target.height < REFERENCE.height ∧
      (tinyRegion.scale smallScaler).width = 0 ∧
      (tinyRegion.scale smallScaler).height = 0) ∧
    ∀ (t : CoordinateTransform) (w h : ℤ),
      1 ≤ (t.map_size w h).1 ∧ 1 ≤ (t.map_size w h).2 := by
  constructor
  · refine ⟨by decide, by decide, by decide, by decide, ?_, ?_⟩ <;>
      simp [tinyRegion, smallScaler, UIRegion.scale, CoordinateScaler.scale_rect,
        CoordinateScaler.scale_point, CoordinateScaler.scale_size,
        CoordinateScaler.scale_x, CoordinateScaler.scale_y, REFERENCE, pytrunc] <;>
      norm_num
  · intro t w h
    exact ⟨le_max_left _ _, le_max_left _ _⟩

/-- C9: for the five action kinds with no registered validator
(`LockShop`, `UnequipItem`, `CombineItems`, `DeployHero`, `RecallHero`),
`validate` returns (rather than raising) an invalid result carrying the
unknown-action-type error, and `validate_and_fix` degrades the action to
the None action with that error in its rationale. -/

theorem validate_total_on_unknown_kinds (a : Action) (s : GameState)
    (h : a.type = ActionType.lock_shop ∨ a.type = ActionType.unequip_item ∨
      a.type = ActionType.combine_items ∨ a.type = ActionType.deploy_hero ∨
      a.type = ActionType.recall_hero) :
    validate a s =
      Except.ok { is_valid := false, action := a,
                  error := some (unknownActionTypeMsg a.type) } ∧
    validate_and_fix a s =
      Except.ok (Action.none_action ("动作验证失败: " ++ unknownActionTypeMsg a.type)) ∧
    (Action.none_action ("动作验证失败: " ++ unknownActionTypeMsg a.type)).type =
      ActionType.none := by
  rcases h with h | h | h | h | h <;>
    refine ⟨?_, ?_, rfl⟩ <;>
    simp [validate, validate_and_fix, tryFixAction, h, Action.none_action]

/-- Witness for the unknown-kind totality theorem at `LockShop` on the
initial game state. -/

theorem validate_total_on_unknown_kinds_witness :
    validate_and_fix lockShopAction initialGameState =
      Except.ok (Action.none_action
        ("动作验证失败: " ++ unknownActionTypeMsg ActionType.lock_shop)) :=
  (validate_total_on_unknown_kinds lockShopAction initialGameState (Or.inl rfl)).2.1

/-- The retry loop increments `_call_count` exactly when it returns a
successful outcome. -/

theorem retryLoop_calls_used (attempts : ℕ → AttemptResult) (count : ℕ) :
    ∀ (n i : ℕ) (lastErr : Option String),
      (retryLoop attempts count i n lastErr).calls_used =
        count + (if (retryLoop attempts count i n lastErr).outcome.isOk then 1 else 0) := by
  intro n
  induction n with
  | zero => intro i lastErr; simp [retryLoop, CallOutcome.isOk]
  | succ m ih =>
      intro i lastErr
      cases h : attempts i with
      | ok s => simp [retryLoop, h, CallOutcome.isOk]
      | timeout => simp [retryLoop, h, CallOutcome.isOk]
      | err e => simpa [retryLoop, h] using ih (i + 1) (some e)

/-- A guarded call leaves `_call_count` unchanged unless it succeeds, in
which case it adds exactly one. -/

theorem guardedCall_calls_used (cfg : LLMConfig) (count : ℕ)
    (attempts : ℕ → AttemptResult) :
    (guardedCall cfg count attempts).calls_used =
      count + (if (guardedCall cfg count attempts).outcome.isOk then 1 else 0) := by
  unfold guardedCall
  by_cases h : cfg.budget_per_session ≤ count
  · simp [h, CallOutcome.isOk]
  · simp only [h, if_false]
    exact retryLoop_calls_used attempts count (cfg.max_retries + 1) 0 Option.none

/-- A successful guarded call starts strictly under the budget. -/

theorem guardedCall_ok_lt_budget (cfg : LLMConfig) (count : ℕ)
    (attempts : ℕ → AttemptResult)
    (h : (guardedCall cfg count attempts).outcome.isOk = true) :
    count < cfg.budget_per_session := by
  by_contra hb
  push_neg at hb
  simp [guardedCall, hb, CallOutcome.isOk] at h

/-- Session accounting: starting from `_call_count = count`, the number of
successful returns is bounded through `max count budget`. -/

theorem sessionOutcomes_ok_bound (cfg : LLMConfig) :
    ∀ (calls : List (ℕ → AttemptResult)) (count : ℕ),
      ((sessionOutcomes cfg calls count).filter CallOutcome.isOk).length + count ≤
        max count cfg.budget_per_session := by
  intro calls
  induction calls with
  | nil =>
      intro count
      simp only [sessionOutcomes, List.filter_nil, List.length_nil, Nat.zero_add]
      exact le_max_left _ _
  | cons c rest ih =>
      intro count
      by_cases hok : (guardedCall cfg count c).outcome.isOk = true
      · have hlt := guardedCall_ok_lt_budget cfg count c hok
        have hcu := guardedCall_calls_used cfg count c
        rw [hok, if_pos rfl] at hcu
        have := ih (count + 1)
        rw [max_eq_right (by omega : count + 1 ≤ cfg.budget_per_session)] at this
        simp only [sessionOutcomes, List.filter, hok]
        rw [hcu]
        simp only [List.length_cons]
        rw [max_eq_right (le_of_lt hlt)]
        omega
      · have hcu := guardedCall_calls_used cfg count c
        rw [if_neg (by simpa using hok)] at hcu
        have := ih count
        simp only [sessionOutcomes, List.filter, hok]
        rw [hcu]
        simpa using this

/-- C2: a guarded call made at or over budget fails as budget-exhausted
with zero backend attempts; `_call_count` is incremented exactly by
successful returns; hence the successful returns across a whole session
never exceed `budget_per_session`. -/

theorem llm_budget_enforced (cfg : LLMConfig) (count : ℕ)
    (attempts : ℕ → AttemptResult) :
    (cfg.budget_per_session ≤ count →
      guardedCall cfg count attempts = ⟨CallOutcome.budgetExhausted, count, 0⟩) ∧
    (guardedCall cfg count attempts).calls_used =
      count + (if (guardedCall cfg count attempts).outcome.isOk then 1 else 0) ∧
    ∀ calls : List (ℕ → AttemptResult),
      ((sessionOutcomes cfg calls 0).filter CallOutcome.isOk).length ≤
        cfg.budget_per_session := by
  refine ⟨fun h => by simp [guardedCall, h], guardedCall_calls_used cfg count attempts,
    fun calls => ?_⟩
  have := sessionOutcomes_ok_bound cfg calls 0
  simpa using this

/-- Witness for the budget theorem: with budget 2 and `_call_count`
already 2, a call is rejected with no attempt, and an all-successful
3-call session from 0 yields at most 2 successes. -/

theorem llm_budget_enforced_witness :
    guardedCall ⟨30, 2, 2⟩ 2 (fun _ => AttemptResult.ok "r") =
      ⟨CallOutcome.budgetExhausted, 2, 0⟩ ∧
    ((sessionOutcomes ⟨30, 2, 2⟩
        [fun _ => AttemptResult.ok "a", fun _ => AttemptResult.ok "b",
         fun _ => AttemptResult.ok "c"] 0).filter CallOutcome.isOk).length ≤ 2 :=
  ⟨(llm_budget_enforced ⟨30, 2, 2⟩ 2 (fun _ => AttemptResult.ok "r")).1 (by decide),
   (llm_budget_enforced ⟨30, 2, 2⟩ 2 (fun _ => AttemptResult.ok "r")).2.2 _⟩

/-- Inside the retry loop, a timeout at relative attempt `k` (after `k`
non-timeout errors) surfaces immediately without incrementing the count
and without further attempts. -/

theorem retryLoop_timeout (attempts : ℕ → AttemptResult) (count : ℕ) :
    ∀ (k n i : ℕ) (lastErr : Option String), k < n →
      (∀ j, j < k → ∃ e, attempts (i + j) = AttemptResult.err e) →
      attempts (i + k) = AttemptResult.timeout →
      retryLoop attempts count i n lastErr =
        ⟨CallOutcome.timedOut, count, i + k + 1⟩ := by
  intro k
  induction k with
  | zero =>
      intro n i lastErr hk _ ht
      obtain ⟨m, rfl⟩ := Nat.exists_eq_succ_of_ne_zero (by omega : n ≠ 0)
      simp only [Nat.add_zero] at ht
      simp [retryLoop, ht]
  | succ k ih =>
      intro n i lastErr hk herr ht
      obtain ⟨m, rfl⟩ := Nat.exists_eq_succ_of_ne_zero (by omega : n ≠ 0)
      obtain ⟨e, he⟩ := herr 0 (by omega)
      simp only [Nat.add_zero] at he
      have step : retryLoop attempts count i (m + 1) lastErr =
          retryLoop attempts count (i + 1) m (some e) := by
        simp [retryLoop, he]
      rw [step]
      have := ih m (i + 1) (some e) (by omega)
        (fun j hj => by
          obtain ⟨e2, he2⟩ := herr (j + 1) (by omega)
          exact ⟨e2, by rw [show i + 1 + j = i + (j + 1) by omega]; exact he2⟩)
        (by rw [show i + 1 + k = i + (k + 1) by omega]; exact ht)
      rw [this]
      congr 1
      omega

/-- Inside the retry loop, if every attempt errors (non-timeout), the loop
makes all its attempts and surfaces the last error, without incrementing
the count. -/

theorem retryLoop_all_err (attempts : ℕ → AttemptResult) (count : ℕ)
    (es : ℕ → String) :
    ∀ (n i : ℕ) (lastErr : Option String), 0 < n →
      (∀ j, j < n → attempts (i + j) = AttemptResult.err (es (i + j))) →
      retryLoop attempts count i n lastErr =
        ⟨CallOutcome.failed (es (i + n - 1)), count, i + n⟩ := by
  intro n
  induction n with
  | zero => intro i lastErr h; omega
  | succ m ih =>
      intro i lastErr _ herr
      have he : attempts i = AttemptResult.err (es i) := by
        have := herr 0 (by omega)
        simpa using this
      have step : retryLoop attempts count i (m + 1) lastErr =
          retryLoop attempts count (i + 1) m (some (es i)) := by
        simp [retryLoop, he]
      rw [step]
      cases m with
      | zero => simp [retryLoop]
      | succ m2 =>
          have := ih (i + 1) (some (es i)) (by omega)
            (fun j hj => by
              have := herr (j + 1) (by omega)
              rw [show i + 1 + j = i + (j + 1) by omega]
              exact this)
          rw [this]
          have e1 : i + 1 + (m2 + 1) - 1 = i + (m2 + 1 + 1) - 1 := by omega
          have e2 : i + 1 + (m2 + 1) = i + (m2 + 1 + 1) := by omega
          rw [e1, e2]

/-- C3: under budget, a timeout at attempt `i ≤ max_retries` (preceded by
non-timeout errors) propagates immediately — no further attempt, count
unchanged — while a run of nothing but non-timeout errors performs all
`max_retries + 1` attempts and surfaces the last error, also without
incrementing the count. -/

theorem llm_timeout_no_retry_and_error_retry (cfg : LLMConfig) (count : ℕ)
    (attempts : ℕ → AttemptResult) (hb : count < cfg.budget_per_session) :
    (∀ i, i ≤ cfg.max_retries →
      (∀ j, j < i → ∃ e, attempts j = AttemptResult.err e) →
      attempts i = AttemptResult.timeout →
      guardedCall cfg count attempts = ⟨CallOutcome.timedOut, count, i + 1⟩) ∧
    (∀ es : ℕ → String,
      (∀ i, i ≤ cfg.max_retries → attempts i = AttemptResult.err (es i)) →
      guardedCall cfg count attempts =
        ⟨CallOutcome.failed (es cfg.max_retries), count, cfg.max_retries + 1⟩) := by
  constructor
  · intro i hi herr ht
    unfold guardedCall
    rw [if_neg (by omega)]
    have := retryLoop_timeout attempts count i (cfg.max_retries + 1) 0 Option.none
      (by omega) (fun j hj => by simpa using herr j hj) (by simpa using ht)
    simpa using this
  · intro es herr
    unfold guardedCall
    rw [if_neg (by omega)]
    have := retryLoop_all_err attempts count es (cfg.max_retries + 1) 0 Option.none
      (by omega) (fun j hj => by simpa using herr j (by omega))
    simpa using this

/-- Witness for the timeout/retry theorem: budget 5, 2 retries; an
immediately-timing-out backend yields `timedOut` after exactly one
attempt; an always-erroring backend yields the last error after exactly 3
attempts; the count stays 0 in both runs. -/

theorem llm_timeout_no_retry_and_error_retry_witness :
    guardedCall ⟨30, 2, 5⟩ 0 (fun _ => AttemptResult.timeout) =
      ⟨CallOutcome.timedOut, 0, 1⟩ ∧
    guardedCall ⟨30, 2, 5⟩ 0 (fun _ => AttemptResult.err "boom") =
      ⟨CallOutcome.failed "boom", 0, 3⟩ :=
  ⟨(llm_timeout_no_retry_and_error_retry ⟨30, 2, 5⟩ 0 (fun _ => AttemptResult.timeout)
      (by decide)).1 0 (by decide) (fun j hj => absurd hj (by omega)) rfl,
   (llm_timeout_no_retry_and_error_retry ⟨30, 2, 5⟩ 0 (fun _ => AttemptResult.err "boom")
      (by decide)).2 (fun _ => "boom") (fun i _ => rfl)⟩

/-- Counterexample to C4 as stated: `validate_and_fix` returns a repaired
BuyHero action that `validate` still rejects on the same state (the
repair never re-checks affordability: gold 0 < cost 3), so the result is
neither an action `validate` accepts nor the None action. -/

theorem validate_and_fix_returns_invalid_counterexample :
    validate_and_fix slotlessBuyAction poorBuyerState = Except.ok repairedBuyAction ∧
    repairedBuyAction.type ≠ ActionType.none ∧
    validate repairedBuyAction poorBuyerState =
      Except.ok { is_valid := false, action := repairedBuyAction,
                  error := some "金币不足" } := by
  have hconf : (1 : ℚ) * (9/10) = 9/10 := one_mul _
  have hne : ("剑魔").isEmpty = false := by decide
  refine ⟨?_, by decide, ?_⟩
  · simp [validate_and_fix, validate, validateBuyHero, slotlessBuyAction,
      poorBuyerState, optStrTruthy, tryFixAction, tryFixBuy, repairedBuyAction,
      hconf, hne]
  · simp [validate, validateBuyHero, repairedBuyAction, poorBuyerState,
      optStrTruthy, GameState.has_bench_space, hne]

/-- The BuyHero repair loop returns the first matching unsold slot, with
the slot index as position and the confidence decayed by 0.9. -/

theorem tryFixBuy_some_spec (a : Action) :
    ∀ (l : List ShopSlot) (i0 : ℕ) (f : Action), tryFixBuy a l i0 = some f →
      ∃ k, ∃ hk : k < l.length,
        ((l.get ⟨k, hk⟩).hero_name == a.target) = true ∧
        (l.get ⟨k, hk⟩).is_sold = false ∧
        f = { type := a.type, target := a.target,
              position := some [((i0 + k : ℕ) : ℤ)],
              reasoning := a.reasoning,
              confidence := a.confidence * (9/10) } := by
  intro l
  induction l with
  | nil => intro i0 f h; simp [tryFixBuy] at h
  | cons slot rest ih =>
      intro i0 f h
      by_cases hc : (slot.hero_name == a.target) = true ∧ slot.is_sold = false
      · rw [tryFixBuy, if_pos hc] at h
        refine ⟨0, by simp, by simpa using hc.1, by simpa using hc.2, ?_⟩
        cases h
        simp
      · rw [tryFixBuy, if_neg hc] at h
        obtain ⟨k, hk, h1, h2, h3⟩ := ih (i0 + 1) f h
        refine ⟨k + 1, by simpa using Nat.succ_lt_succ hk, by simpa using h1,
          by simpa using h2, ?_⟩
        rw [h3]
        have : i0 + 1 + k = i0 + (k + 1) := by omega
        rw [this]

/-- C4 (amended): when `validate_and_fix` completes without a Python-level
exception, its result is the originally validated action, or the None
action with an explanatory rationale, or a BuyHero repair (first unsold
shop slot whose name equals the target, confidence × 0.9 — not
necessarily re-validating, e.g. when gold is short), or a MoveHero repair
(target position clamped to board bounds, confidence × 0.9). -/

theorem validate_and_fix_amended (a : Action) (s : GameState) (r : Action)
    (h : validate_and_fix a s = Except.ok r) :
    (∃ vr, validate a s = Except.ok vr ∧ vr.is_valid = true ∧
       r = vr.modified_action.getD vr.action) ∨
    r.type = ActionType.none ∨
    (a.type = ActionType.buy_hero ∧ r.type = ActionType.buy_hero ∧
       r.target = a.target ∧ r.confidence = a.confidence * (9/10) ∧
       ∃ k, ∃ hk : k < s.shop_slots.length,
         ((s.shop_slots.get ⟨k, hk⟩).hero_name == a.target) = true ∧
         (s.shop_slots.get ⟨k, hk⟩).is_sold = false ∧
         r.position = some [(k : ℤ)]) ∨
    (a.type = ActionType.move_hero ∧ r.type = ActionType.move_hero ∧
       r.target = a.target ∧ r.source_position = a.source_position ∧
       r.confidence = a.confidence * (9/10) ∧
       ∃ row col : ℤ, a.position = some [row, col] ∧
         r.position = some [max 0 (min row 3), max 0 (min col 6)]) := by
  unfold validate_and_fix at h
  cases hv : validate a s with
  | error e => rw [hv] at h; cases h
  | ok vr =>
      rw [hv] at h
      dsimp only at h
      by_cases hvalid : vr.is_valid = true
      · rw [if_pos hvalid] at h
        cases h
        exact Or.inl ⟨vr, rfl, hvalid, rfl⟩
      · rw [if_neg hvalid] at h
        unfold tryFixAction at h
        by_cases hbuy : a.type = ActionType.buy_hero
        · rw [if_pos hbuy] at h
          cases hfix : tryFixBuy a s.shop_slots 0 with
          | none =>
              rw [hfix] at h
              cases h
              exact Or.inr (Or.inl rfl)
          | some f =>
              rw [hfix] at h
              cases h
              obtain ⟨k, hk, h1, h2, h3⟩ := tryFixBuy_some_spec a s.shop_slots 0 _ hfix
              subst h3
              exact Or.inr (Or.inr (Or.inl ⟨hbuy, hbuy, rfl, rfl, k, hk, h1, h2,
                by simp⟩))
        · rw [if_neg hbuy] at h
          by_cases hmove : a.type = ActionType.move_hero
          · rw [if_pos hmove] at h
            cases hpos : a.position with
            | none =>
                rw [hpos] at h
                cases h
                exact Or.inr (Or.inl rfl)
            | some l =>
                rw [hpos] at h
                match l, h with
                | [], h =>
                    cases h
                    exact Or.inr (Or.inl rfl)
                | [row, col], h =>
                    cases h
                    exact Or.inr (Or.inr (Or.inr ⟨hmove, by simp [hmove], rfl, rfl, rfl,
                      row, col, by simp [hpos], rfl⟩))
                | x :: y :: z :: rest, h => cases h
                | [x], h => cases h
          · rw [if_neg hmove] at h
            cases h
            exact Or.inr (Or.inl rfl)

/-- Witness for the amended C4 theorem: a Wait action on the initial state
validates as-is and `validate_and_fix` returns it unchanged. -/

theorem validate_and_fix_amended_witness :
    validate_and_fix (Action.wait 1 "") initialGameState =
      Except.ok (Action.wait 1 "") ∧
    ((∃ vr, validate (Action.wait 1 "") initialGameState = Except.ok vr ∧
        vr.is_valid = true ∧
        Action.wait 1 "" = vr.modified_action.getD vr.action) ∨
      (Action.wait 1 "").type = ActionType.none ∨
      ((Action.wait 1 "").type = ActionType.buy_hero ∧
        (Action.wait 1 "").type = ActionType.buy_hero ∧
        (Action.wait 1 "").target = (Action.wait 1 "").target ∧
        (Action.wait 1 "").confidence = (Action.wait 1 "").confidence * (9/10) ∧
        ∃ k, ∃ hk : k < initialGameState.shop_slots.length,
          ((initialGameState.shop_slots.get ⟨k, hk⟩).hero_name ==
            (Action.wait 1 "").target) = true ∧
          (initialGameState.shop_slots.get ⟨k, hk⟩).is_sold = false ∧
          (Action.wait 1 "").position = some [(k : ℤ)]) ∨
      ((Action.wait 1 "").type = ActionType.move_hero ∧
        (Action.wait 1 "").type = ActionType.move_hero ∧
        (Action.wait 1 "").target = (Action.wait 1 "").target ∧
        (Action.wait 1 "").source_position = (Action.wait 1 "").source_position ∧
        (Action.wait 1 "").confidence = (Action.wait 1 "").confidence * (9/10) ∧
        ∃ row col : ℤ, (Action.wait 1 "").position = some [row, col] ∧
          (Action.wait 1 "").position =
            some [max 0 (min row 3), max 0 (min col 6)])) :=
  ⟨rfl, validate_and_fix_amended (Action.wait 1 "") initialGameState
    (Action.wait 1 "") rfl⟩

/-- The stable descending sort of the registered default rules: the
unique Critical rule (`emergency_level_up`) first, then the two High
rules in registration order, then Normal, then Low. -/

theorem sortRulesDesc_defaultRules :
    sortRulesDesc defaultRules =
      [emergencyLevelUpRule, autoBuyForThreeStarRule, autoBuyNeededHeroRule,
       autoFreeRefreshRule, autoSellExtraHeroRule] := rfl

/-- Evaluation of `check_quick_actions` as the if-chain over the sorted
default rules. -/

theorem checkQuickActions_eval (s : GameState) :
    checkQuickActions s =
      if emergencyLevelUpRule.condition s then some (ruleOutput emergencyLevelUpRule s)
      else if autoBuyForThreeStarRule.condition s then
        some (ruleOutput autoBuyForThreeStarRule s)
      else if autoBuyNeededHeroRule.condition s then
        some (ruleOutput autoBuyNeededHeroRule s)
      else if autoFreeRefreshRule.condition s then
        some (ruleOutput autoFreeRefreshRule s)
      else if autoSellExtraHeroRule.condition s then
        some (ruleOutput autoSellExtraHeroRule s)
      else Option.none := rfl

/-- C5 (amended): for `hp ≤ 30 ∧ gold ≥ 4 ∧ level < 9` the
`emergency_level_up` rule — the unique rule at Critical rule priority —
fires first and yields a LevelUp action through the rule path of
`decide`; the emitted action's own priority, set by `Action.level_up`,
is High (not Critical). -/

theorem emergency_level_up_fires_first (s : GameState)
    (h1 : s.hp ≤ 30) (h2 : 4 ≤ s.gold) (h3 : s.level < 9) :
    checkQuickActions s = some emergencyLevelUpAction ∧
    emergencyLevelUpRule.priority = ActionPriority.critical ∧
    (∀ r ∈ defaultRules, r.name ≠ "emergency_level_up" →
      r.priority.value < ActionPriority.critical.value) ∧
    decideRulePhase s =
      Except.ok (some { action := emergencyLevelUpAction, source := "rule",
                        llm_analysis := Option.none, confidence := 1,
                        latency_ms := 0 }) ∧
    emergencyLevelUpAction.type = ActionType.level_up ∧
    emergencyLevelUpAction.priority = ActionPriority.high := by
  have hcond : emergencyLevelUpRule.condition s = true := by
    simp only [emergencyLevelUpRule, decide_eq_true_eq]
    exact ⟨h1, h2, h3⟩
  have hcheck : checkQuickActions s = some emergencyLevelUpAction := by
    rw [checkQuickActions_eval, hcond, if_pos rfl]
    rfl
  have hvalid : validate emergencyLevelUpAction s =
      Except.ok { is_valid := true, action := emergencyLevelUpAction } := by
    show validateLevelUp emergencyLevelUpAction s = _
    unfold validateLevelUp
    rw [if_neg (by omega), if_neg (by omega)]
  refine ⟨hcheck, rfl, by decide, ?_, rfl, rfl⟩
  unfold decideRulePhase
  rw [hcheck]
  dsimp only
  unfold validate_and_fix
  rw [hvalid]
  rfl

/-- Counterexample to C5 as stated: at `GameState{hp=20, gold=10,
level=4}` the rule decision is a LevelUp from the rule source, but the
returned action's priority is High (75), not Critical (100) — the
Critical value is the rule's priority, which `Action.level_up` does not
propagate onto the action. -/

theorem emergency_level_up_priority_counterexample :
    decideRulePhase emergencyScenarioState =
      Except.ok (some { action := emergencyLevelUpAction, source := "rule",
                        llm_analysis := Option.none, confidence := 1,
                        latency_ms := 0 }) ∧
    emergencyLevelUpAction.type = ActionType.level_up ∧
    emergencyLevelUpAction.priority = ActionPriority.high ∧
    ActionPriority.high ≠ ActionPriority.critical := by
  refine ⟨by decide, rfl, rfl, by decide⟩

/-- Witness for the amended C5 theorem at the scenario state. -/

theorem emergency_level_up_fires_first_witness :
    checkQuickActions emergencyScenarioState = some emergencyLevelUpAction ∧
    emergencyLevelUpRule.priority = ActionPriority.critical ∧
    (∀ r ∈ defaultRules, r.name ≠ "emergency_level_up" →
      r.priority.value < ActionPriority.critical.value) ∧
    decideRulePhase emergencyScenarioState =
      Except.ok (some { action := emergencyLevelUpAction, source := "rule",
                        llm_analysis := Option.none, confidence := 1,
                        latency_ms := 0 }) ∧
    emergencyLevelUpAction.type = ActionType.level_up ∧
    emergencyLevelUpAction.priority = ActionPriority.high :=
  emergency_level_up_fires_first emergencyScenarioState (by decide) (by decide)
    (by decide)

/-- Counterexample to C7 as stated: with `can_refresh`, `gold = 3 ≥
refresh_cost = 2` and no shop slot matching an owned hero, the claim says
`auto_free_refresh` fires, but `_should_refresh` bails out whenever
`gold < 4`, so the rule's condition is false and no rule action is
emitted at all. -/

theorem auto_free_refresh_two_gold_counterexample :
    threeGoldState.can_refresh = true ∧ 2 ≤ threeGoldState.gold ∧
    noShopOwnedMatch threeGoldState ∧
    autoFreeRefreshRule.condition threeGoldState = false ∧
    checkQuickActions threeGoldState = Option.none := by
  refine ⟨rfl, by decide, ?_, by decide, by decide⟩
  intro slot hslot _ h hh
  simp [threeGoldState] at hslot
  rcases hslot with h1 | h1 | h1 | h1 | h1 <;> subst h1 <;> simp

/-- C7 (amended): `auto_free_refresh` fires for exactly the states with
`can_refresh`, `gold ≥ 4` (the registered condition's `gold ≥ 2` is
subsumed by `_should_refresh`'s own `gold ≥ 4` bail-out) and no named,
unsold shop slot matching an owned hero; when it fires and no
higher-priority default rule matches, the engine emits the RefreshShop
action at Normal priority. -/

theorem auto_free_refresh_requires_four_gold (s : GameState) :
    (autoFreeRefreshRule.condition s = true ↔
      (s.can_refresh = true ∧ 4 ≤ s.gold ∧ noOwnedShopMatchCode s)) ∧
    (autoFreeRefreshRule.condition s = true →
      emergencyLevelUpRule.condition s = false →
      autoBuyForThreeStarRule.condition s = false →
      autoBuyNeededHeroRule.condition s = false →
      checkQuickActions s = some refreshShopRuleAction ∧
      refreshShopRuleAction.type = ActionType.refresh_shop ∧
      refreshShopRuleAction.priority = ActionPriority.normal) := by
  constructor
  · unfold autoFreeRefreshRule shouldRefresh noOwnedShopMatchCode
    by_cases h4 : s.gold < 4
    · simp only [if_pos h4]
      constructor
      · intro h; simp at h
      · rintro ⟨_, h, _⟩; omega
    · simp only [if_neg h4]
      constructor
      · intro h
        simp only [Bool.and_eq_true, decide_eq_true_eq, List.all_eq_true] at h
        obtain ⟨⟨hcr, _⟩, hall⟩ := h
        refine ⟨hcr, by omega, ?_⟩
        intro slot hslot htr hsold h hh
        have := hall slot hslot
        rw [if_pos ⟨htr, hsold⟩] at this
        simp only [List.all_eq_true] at this
        have := this h hh
        simpa using this
      · rintro ⟨hcr, hg, hmatch⟩
        simp only [Bool.and_eq_true, decide_eq_true_eq, List.all_eq_true]
        refine ⟨⟨hcr, by omega⟩, ?_⟩
        intro slot hslot
        by_cases hc : optStrTruthy slot.hero_name = true ∧ slot.is_sold = false
        · rw [if_pos hc]
          simp only [List.all_eq_true]
          intro h hh
          have := hmatch slot hslot hc.1 hc.2 h hh
          simpa using this
        · rw [if_neg hc]
  · intro hfire h1 h2 h3
    refine ⟨?_, rfl, rfl⟩
    rw [checkQuickActions_eval, h1, h2, h3, hfire]
    rfl

/-- Witness for the amended C7 theorem at a 5-gold empty-shop state. -/

theorem auto_free_refresh_requires_four_gold_witness :
    (fiveGoldState.can_refresh = true ∧ 4 ≤ fiveGoldState.gold ∧
      noOwnedShopMatchCode fiveGoldState) ∧
    checkQuickActions fiveGoldState = some refreshShopRuleAction ∧
    refreshShopRuleAction.type = ActionType.refresh_shop ∧
    refreshShopRuleAction.priority = ActionPriority.normal :=
  ⟨(auto_free_refresh_requires_four_gold fiveGoldState).1.mp (by decide),
   (auto_free_refresh_requires_four_gold fiveGoldState).2 (by decide) (by decide)
     (by decide) (by decide)⟩

/-- The `pytrunc` is the floor on non-negative rationals. -/

theorem pytrunc_of_nonneg (q : ℚ) (h : 0 ≤ q) : pytrunc q = ⌊q⌋ := if_pos h

/-- Mapping an integer through a positive scale and back by floored
division loses at most the truncation error `1/s` plus the final floor. -/

theorem floor_mul_floor_div_bounds (sx : ℚ) (p : ℤ) (hs : 0 < sx) :
    ⌊((⌊(p : ℚ) * sx⌋ : ℤ) : ℚ) / sx⌋ ≤ p ∧
    ((p : ℚ) - ⌊((⌊(p : ℚ) * sx⌋ : ℤ) : ℚ) / sx⌋) < 1 / sx + 1 := by
  have hupper : ((⌊(p : ℚ) * sx⌋ : ℤ) : ℚ) / sx ≤ (p : ℚ) := by
    rw [div_le_iff hs]
    exact Int.floor_le _
  constructor
  · have h1 := Int.floor_le_floor hupper
    simpa using h1
  · have key : (p : ℚ) - 1 / sx = ((p : ℚ) * sx - 1) / sx := by
      field_simp
    have hfl : (p : ℚ) * sx - 1 < ((⌊(p : ℚ) * sx⌋ : ℤ) : ℚ) :=
      Int.sub_one_lt_floor _
    have hlow : (p : ℚ) - 1 / sx < ((⌊(p : ℚ) * sx⌋ : ℤ) : ℚ) / sx := by
      rw [key]
      exact (div_lt_div_right hs).mpr hfl
    have hup2 : ((⌊(p : ℚ) * sx⌋ : ℤ) : ℚ) / sx <
        (⌊((⌊(p : ℚ) * sx⌋ : ℤ) : ℚ) / sx⌋ : ℚ) + 1 := Int.lt_floor_add_one _
    linarith

/-- Geometry facts guaranteed by a successful transform construction. -/

theorem mkCoordinateTransform_ok_facts (base_size current_size : ℤ × ℤ)
    (content_rect : Option (ℤ × ℤ × ℤ × ℤ)) (t : CoordinateTransform)
    (hmk : mkCoordinateTransform base_size current_size content_rect = Except.ok t) :
    0 < t.base_size.1 ∧ 0 < t.base_size.2 ∧ 0 ≤ t.offset_x ∧ 0 ≤ t.offset_y ∧
    0 < t.content_rect.2.2.1 ∧ 0 < t.content_rect.2.2.2 := by
  unfold mkCoordinateTransform at hmk
  split_ifs at hmk with hb hc hr hbound
  cases hmk
  push_neg at hb hc hr
  exact ⟨hb.1, hb.2, hr.1, hr.2.1, hr.2.2.1, hr.2.2.2⟩

/-- One coordinate of the round trip: `q = trunc(trunc(p·s)/s)` recovers
`p` up to the truncation error, i.e. `0 ≤ p − q < bw/cw + 1`. -/

theorem roundtrip_coordinate (bw cw ox p : ℤ) (hbw : 0 < bw) (hcw : 0 < cw)
    (hox : 0 ≤ ox) (hp : 0 ≤ p) :
    pytrunc (((pytrunc ((ox : ℚ) + p * ((cw : ℚ) / bw)) - ox : ℤ) : ℚ) /
        ((cw : ℚ) / bw)) ≤ p ∧
    (p - pytrunc (((pytrunc ((ox : ℚ) + p * ((cw : ℚ) / bw)) - ox : ℤ) : ℚ) /
        ((cw : ℚ) / bw))) * cw < bw + cw := by
  have hs : (0 : ℚ) < (cw : ℚ) / bw :=
    div_pos (by exact_mod_cast hcw) (by exact_mod_cast hbw)
  have hpsx : (0 : ℚ) ≤ (p : ℚ) * ((cw : ℚ) / bw) :=
    mul_nonneg (by exact_mod_cast hp) hs.le
  have harg : (0 : ℚ) ≤ (ox : ℚ) + p * ((cw : ℚ) / bw) :=
    add_nonneg (by exact_mod_cast hox) hpsx
  have hmap : pytrunc ((ox : ℚ) + p * ((cw : ℚ) / bw)) =
      ox + ⌊(p : ℚ) * ((cw : ℚ) / bw)⌋ := by
    rw [pytrunc_of_nonneg _ harg, Int.floor_int_add]
  have hm0 : 0 ≤ ⌊(p : ℚ) * ((cw : ℚ) / bw)⌋ := Int.floor_nonneg.mpr hpsx
  have hsub : (pytrunc ((ox : ℚ) + p * ((cw : ℚ) / bw)) - ox : ℤ) =
      ⌊(p : ℚ) * ((cw : ℚ) / bw)⌋ := by rw [hmap]; ring
  rw [hsub]
  have hdiv0 : (0 : ℚ) ≤ ((⌊(p : ℚ) * ((cw : ℚ) / bw)⌋ : ℤ) : ℚ) / ((cw : ℚ) / bw) :=
    div_nonneg (by exact_mod_cast hm0) hs.le
  rw [pytrunc_of_nonneg _ hdiv0]
  obtain ⟨h1, h2⟩ := floor_mul_floor_div_bounds ((cw : ℚ) / bw) p hs
  refine ⟨h1, ?_⟩
  have hinv : 1 / ((cw : ℚ) / bw) = (bw : ℚ) / cw := one_div_div _ _
  rw [hinv] at h2
  have hcwq : (0 : ℚ) < (cw : ℚ) := by exact_mod_cast hcw
  have h3 : ((p : ℚ) - ⌊((⌊(p : ℚ) * ((cw : ℚ) / bw)⌋ : ℤ) : ℚ) / ((cw : ℚ) / bw)⌋) *
      cw < ((bw : ℚ) / cw + 1) * cw := by
    exact mul_lt_mul_of_pos_right h2 hcwq
  rw [add_mul, div_mul_cancel₀ _ (ne_of_gt hcwq), one_mul] at h3
  exact_mod_cast h3

/-- C8: for every successfully constructed transform and every
non-negative base point `p`, `unmap_point (map_point p)` succeeds and
returns `p` up to integer truncation: each returned coordinate `q`
satisfies `q ≤ p` and `(p − q)·content < base + content`, i.e.
`p − q < 1/scale + 1`, the error of the two truncations (exact whenever
the scale is ≥ 1 and divides `p·scale` evenly; in particular identity at
scale 1). -/

theorem transform_unmap_map_roundtrip (base_size current_size : ℤ × ℤ)
    (content_rect : Option (ℤ × ℤ × ℤ × ℤ)) (t : CoordinateTransform)
    (hmk : mkCoordinateTransform base_size current_size content_rect = Except.ok t)
    (p : ℤ × ℤ) (hp1 : 0 ≤ p.1) (hp2 : 0 ≤ p.2) :
    t.unmap_point (t.map_point p) = Except.ok (unmapValue t (t.map_point p)) ∧
    (unmapValue t (t.map_point p)).1 ≤ p.1 ∧
    (unmapValue t (t.map_point p)).2 ≤ p.2 ∧
    (p.1 - (unmapValue t (t.map_point p)).1) * t.content_rect.2.2.1 <
      t.base_size.1 + t.content_rect.2.2.1 ∧
    (p.2 - (unmapValue t (t.map_point p)).2) * t.content_rect.2.2.2 <
      t.base_size.2 + t.content_rect.2.2.2 := by
  obtain ⟨hbw, hbh, hox, hoy, hcw, hch⟩ :=
    mkCoordinateTransform_ok_facts base_size current_size content_rect t hmk
  have hsx : (0 : ℚ) < t.scale_x := by
    unfold CoordinateTransform.scale_x
    exact div_pos (by exact_mod_cast hcw) (by exact_mod_cast hbw)
  have hsy : (0 : ℚ) < t.scale_y := by
    unfold CoordinateTransform.scale_y
    exact div_pos (by exact_mod_cast hch) (by exact_mod_cast hbh)
  have hok : t.unmap_point (t.map_point p) =
      Except.ok (unmapValue t (t.map_point p)) := by
    unfold CoordinateTransform.unmap_point unmapValue
    rw [if_neg]
    push_neg
    exact ⟨ne_of_gt hsx, ne_of_gt hsy⟩
  have hx := roundtrip_coordinate t.base_size.1 t.content_rect.2.2.1 t.offset_x p.1
    hbw hcw hox hp1
  have hy := roundtrip_coordinate t.base_size.2 t.content_rect.2.2.2 t.offset_y p.2
    hbh hch hoy hp2
  exact ⟨hok, hx.1, hy.1, hx.2, hy.2⟩

/-- Witness for the round-trip theorem: the transform construction at
(1920×1080 base, 2000×1200 window, explicit content rect) succeeds and
the bounds hold at the point (192, 108). -/

theorem transform_unmap_map_roundtrip_witness :
    CoordinateTransform.unmap_point witnessTransform
        (witnessTransform.map_point (192, 108)) =
      Except.ok (unmapValue witnessTransform (witnessTransform.map_point (192, 108))) ∧
    (unmapValue witnessTransform (witnessTransform.map_point (192, 108))).1 ≤ 192 ∧
    (unmapValue witnessTransform (witnessTransform.map_point (192, 108))).2 ≤ 108 ∧
    (192 - (unmapValue witnessTransform (witnessTransform.map_point (192, 108))).1) *
        1920 < 1920 + 1920 ∧
    (108 - (unmapValue witnessTransform (witnessTransform.map_point (192, 108))).2) *
        1080 < 1080 + 1080 :=
  transform_unmap_map_roundtrip (1920, 1080) (2000, 1200)
    (some (40, 60, 1920, 1080)) witnessTransform rfl (192, 108)
    (by decide) (by decide)

/-- Heroes are constructed with `cost = 0` during recognition, which the
pydantic field bound `cost ≥ 1` rejects. -/

theorem mkHero_cost_zero_fails (name : String) (stars level : ℤ)
    (position : Option (ℤ × ℤ)) :
    mkHero name 0 stars level position = Except.error "ValidationError" := by
  unfold mkHero
  rw [if_neg]
  rintro ⟨h1, -⟩
  omega

/-- The board refill never accumulates any hero (every hero entity raises
at construction). -/

theorem refillBoard_heroes_empty : ∀ es : List RecognizedEntity,
    (refillBoard es).1 = [] := by
  intro es
  induction es with
  | nil => rfl
  | cons e es ih =>
      unfold refillBoard
      by_cases h : (e.entity_type == "hero") = true
      · rw [if_pos h, mkHero_cost_zero_fails]
      · rw [if_neg h]; exact ih

/-- The bench refill never accumulates any hero. -/

theorem refillBench_heroes_empty : ∀ es : List (Option RecognizedEntity),
    (refillBench es).1 = [] := by
  intro es
  induction es with
  | nil => rfl
  | cons oe es ih =>
      cases oe with
      | none => exact ih
      | some e =>
          unfold refillBench
          by_cases h : (e.entity_type == "hero") = true
          · rw [if_pos h, mkHero_cost_zero_fails]
          · rw [if_neg h]; exact ih

/-- The shop update preserves the slot-list length. -/

theorem updateShopSlots_length : ∀ (slots : List ShopSlot)
    (es : List (Option RecognizedEntity)),
    (updateShopSlots slots es).length = slots.length := by
  intro slots
  induction slots with
  | nil => intro es; cases es <;> rfl
  | cons s ss ih =>
      intro es
      cases es with
      | nil => rfl
      | cons e es => simp [updateShopSlots, ih]

/-- The shop update never touches a slot's `index`. -/

theorem updateShopSlots_index : ∀ (slots : List ShopSlot)
    (es : List (Option RecognizedEntity)) (i : ℕ),
    ((updateShopSlots slots es).get? i).map ShopSlot.index =
      (slots.get? i).map ShopSlot.index := by
  intro slots
  induction slots with
  | nil => intro es i; cases es <;> rfl
  | cons s ss ih =>
      intro es i
      cases es with
      | nil => rfl
      | cons e es =>
          cases i with
          | zero => cases e <;> rfl
          | succ n => simpa [updateShopSlots] using ih es n

/-- The `FieldEvo` composed with a slot-stable evolution. -/

theorem FieldEvo.compStable {s t u : GameState} (h1 : FieldEvo s t)
    (h2 : StableEvo t u) : FieldEvo s u := by
  obtain ⟨a1, b1, c1, d1⟩ := h1
  obtain ⟨a2, b2, c2, d2⟩ := h2
  refine ⟨a2.trans a1, ?_, ?_, ?_⟩
  · rcases b2 with h | h
    · rw [h]; exact b1
    · exact Or.inr h
  · rcases c2 with h | h
    · rw [h]; exact c1
    · exact Or.inr h
  · rw [d2]; exact d1

/-- The shop facet only rewrites the slots. -/

theorem applyShopFacet_evo (s : GameState)
    (es? : Option (List (Option RecognizedEntity))) :
    FieldEvo s (applyShopFacet s es?) := by
  cases es? <;>
    exact ⟨rfl, Or.inl rfl, Or.inl rfl, by first
      | exact Or.inl rfl
      | exact Or.inr ⟨_, rfl⟩⟩

/-- The board facet leaves all invariant fields but `heroes`, which it
clears (the refill never adds a hero). -/

theorem applyBoardFacet_evo (s : GameState) (es? : Option (List RecognizedEntity)) :
    StableEvo s (applyBoardFacet s es?).1 := by
  cases es? with
  | none => exact ⟨rfl, Or.inl rfl, Or.inl rfl, rfl⟩
  | some es =>
      exact ⟨rfl, Or.inr (refillBoard_heroes_empty es), Or.inl rfl, rfl⟩

/-- The bench facet leaves all invariant fields but `bench_heroes`,
which it clears. -/

theorem applyBenchFacet_evo (s : GameState)
    (es? : Option (List (Option RecognizedEntity))) :
    StableEvo s (applyBenchFacet s es?).1 := by
  cases es? with
  | none => exact ⟨rfl, Or.inl rfl, Or.inl rfl, rfl⟩
  | some es =>
      exact ⟨rfl, Or.inl rfl, Or.inr (refillBench_heroes_empty es), rfl⟩

/-- The synergy facet leaves all invariant fields. -/

theorem applySynergyFacet_evo (s : GameState)
    (es? : Option (List RecognizedEntity)) :
    StableEvo s (applySynergyFacet s es?) := by
  cases es? <;> exact ⟨rfl, Or.inl rfl, Or.inl rfl, rfl⟩

/-- The items facet leaves all invariant fields. -/

theorem applyItemsFacet_evo (s : GameState)
    (es? : Option (List RecognizedEntity)) :
    StableEvo s (applyItemsFacet s es?) := by
  cases es? <;> exact ⟨rfl, Or.inl rfl, Or.inl rfl, rfl⟩

/-- The whole update evolves the fields only in the allowed ways,
whether it returns normally or aborts on a raise. -/

theorem update_from_recognition_evo (s : GameState)
    (shop_entities : Option (List (Option RecognizedEntity)))
    (board_entities : Option (List RecognizedEntity))
    (bench_entities : Option (List (Option RecognizedEntity)))
    (synergy_entities : Option (List RecognizedEntity))
    (item_entities : Option (List RecognizedEntity)) :
    FieldEvo s (update_from_recognition s shop_entities board_entities
      bench_entities synergy_entities item_entities).1 := by
  have e1 := applyShopFacet_evo s shop_entities
  have e2 := applyBoardFacet_evo (applyShopFacet s shop_entities) board_entities
  unfold update_from_recognition
  rcases hbd : applyBoardFacet (applyShopFacet s shop_entities) board_entities
    with ⟨s2, err2⟩
  rw [hbd] at e2
  have evo2 : FieldEvo s s2 := e1.compStable e2
  cases err2 with
  | some e => exact evo2
  | none =>
      dsimp only
      have e3 := applyBenchFacet_evo s2 bench_entities
      rcases hbc : applyBenchFacet s2 bench_entities with ⟨s3, err3⟩
      rw [hbc] at e3
      have evo3 : FieldEvo s s3 := evo2.compStable e3
      cases err3 with
      | some e => exact evo3
      | none =>
          dsimp only
          exact (evo3.compStable (applySynergyFacet_evo s3 synergy_entities)).compStable
            (applyItemsFacet_evo (applySynergyFacet s3 synergy_entities) item_entities)

/-- Transport of the three GameState invariants along the field changes a
recognition update can make. -/

theorem invariants_transport (s t : GameState) (hevo : FieldEvo s t)
    (h1 : (s.heroes.length : ℤ) ≤ s.level) (h2 : s.bench_heroes.length ≤ 9)
    (h3 : ∀ i : Fin s.shop_slots.length, (s.shop_slots.get i).index = (i : ℤ)) :
    (t.heroes.length : ℤ) ≤ t.level ∧ t.bench_heroes.length ≤ 9 ∧
    ∀ i : Fin t.shop_slots.length, (t.shop_slots.get i).index = (i : ℤ) := by
  obtain ⟨hlvl, hh, hb, hs⟩ := hevo
  have hlvl0 : (0 : ℤ) ≤ s.level := le_trans (by positivity) h1
  refine ⟨?_, ?_, ?_⟩
  · rcases hh with h | h
    · rw [h, hlvl]; exact h1
    · rw [h, hlvl]; simpa using hlvl0
  · rcases hb with h | h
    · rw [h]; exact h2
    · rw [h]; simp
  · have hlen : t.shop_slots.length = s.shop_slots.length := by
      rcases hs with h | ⟨es, hes⟩
      · rw [h]
      · rw [hes]; exact updateShopSlots_length _ _
    have hq : ∀ n : ℕ, (t.shop_slots.get? n).map ShopSlot.index =
        (s.shop_slots.get? n).map ShopSlot.index := by
      intro n
      rcases hs with h | ⟨es, hes⟩
      · rw [h]
      · rw [hes]; exact updateShopSlots_index _ _ _
    intro i
    have hi : (i : ℕ) < s.shop_slots.length := hlen ▸ i.isLt
    have hq2 := hq (i : ℕ)
    rw [List.get?_eq_get i.isLt, List.get?_eq_get hi] at hq2
    simp only [Option.map_some', Option.some.injEq] at hq2
    have hfin : (t.shop_slots.get i).index =
        (s.shop_slots.get ⟨(i : ℕ), hi⟩).index := hq2
    rw [hfin]
    simpa using h3 ⟨(i : ℕ), hi⟩

/-- C6: `update_from_recognition` preserves the GameState invariants
`len(heroes) ≤ level`, `len(bench) ≤ 9` and `shop_slots[i].index = i` for
every recognition input — whether the call returns normally or raises a
pydantic `ValidationError` partway (board/bench refills construct heroes
with `cost=0`, which `Hero`'s `cost ≥ 1` bound rejects, so a refill never
adds a hero).  All other `GameState` operations are read-only queries. -/

theorem update_from_recognition_preserves_invariants (s : GameState)
    (shop_entities : Option (List (Option RecognizedEntity)))
    (board_entities : Option (List RecognizedEntity))
    (bench_entities : Option (List (Option RecognizedEntity)))
    (synergy_entities : Option (List RecognizedEntity))
    (item_entities : Option (List RecognizedEntity))
    (h1 : (s.heroes.length : ℤ) ≤ s.level) (h2 : s.bench_heroes.length ≤ 9)
    (h3 : ∀ i : Fin s.shop_slots.length, (s.shop_slots.get i).index = (i : ℤ)) :
    (((update_from_recognition s shop_entities board_entities bench_entities
        synergy_entities item_entities).1.heroes.length : ℤ) ≤
      (update_from_recognition s shop_entities board_entities bench_entities
        synergy_entities item_entities).1.level) ∧
    (update_from_recognition s shop_entities board_entities bench_entities
        synergy_entities item_entities).1.bench_heroes.length ≤ 9 ∧
    ∀ i : Fin (update_from_recognition s shop_entities board_entities bench_entities
        synergy_entities item_entities).1.shop_slots.length,
      ((update_from_recognition s shop_entities board_entities bench_entities
        synergy_entities item_entities).1.shop_slots.get i).index = (i : ℤ) :=
  invariants_transport s _
    (update_from_recognition_evo s shop_entities board_entities bench_entities
      synergy_entities item_entities) h1 h2 h3

/-- Witness for the invariant-preservation theorem: an update of the
initial state with a recognized shop and one board hero entity (which
raises partway). -/

theorem update_from_recognition_preserves_invariants_witness :
    (((update_from_recognition initialGameState (some witnessShopEntities)
        (some witnessBoardEntities) Option.none Option.none
        Option.none).1.heroes.length : ℤ) ≤
      (update_from_recognition initialGameState (some witnessShopEntities)
        (some witnessBoardEntities) Option.none Option.none
        Option.none).1.level) ∧
    (update_from_recognition initialGameState (some witnessShopEntities)
        (some witnessBoardEntities) Option.none Option.none
        Option.none).1.bench_heroes.length ≤ 9 ∧
    ∀ i : Fin (update_from_recognition initialGameState (some witnessShopEntities)
        (some witnessBoardEntities) Option.none Option.none
        Option.none).1.shop_slots.length,
      ((update_from_recognition initialGameState (some witnessShopEntities)
        (some witnessBoardEntities) Option.none Option.none
        Option.none).1.shop_slots.get i).index = (i : ℤ) :=
  update_from_recognition_preserves_invariants initialGameState
    (some witnessShopEntities) (some witnessBoardEntities)
    Option.none Option.none Option.none (by decide) (by decide) (by decide)

/-- The `windowCount` over an appended singleton. -/

theorem windowCount_append_single (t x : ℚ) (l : List ℚ) :
    windowCount t (l ++ [x]) =
      windowCount t l + (if t - 60 ≤ x ∧ x ≤ t then 1 else 0) := by
  unfold windowCount
  rw [List.filter_append, List.length_append]
  congr 1
  by_cases h : t - 60 ≤ x ∧ x ≤ t
  · rw [if_pos h]
    have e1 : (decide (t - 60 ≤ x) && decide (x ≤ t)) = true := by
      rw [decide_eq_true h.1, decide_eq_true h.2]
      rfl
    rw [show ([x].filter (fun e => decide (t - 60 ≤ e) && decide (e ≤ t))) = [x] by
      simp only [List.filter_cons, e1, List.filter_nil, if_pos]]
    rfl
  · rw [if_neg h]
    have e1 : (decide (t - 60 ≤ x) && decide (x ≤ t)) = false := by
      rcases not_and_or.mp h with h2 | h2
      · rw [decide_eq_false h2, Bool.false_and]
      · rw [decide_eq_false h2, Bool.and_false]
    rw [show ([x].filter (fun e => decide (t - 60 ≤ e) && decide (e ≤ t))) = [] by
      simp only [List.filter_cons, e1, List.filter_nil, if_neg, Bool.false_eq_true,
        if_false]]
    rfl

/-- The `windowCount` splits over append. -/

theorem windowCount_append (t : ℚ) (l1 l2 : List ℚ) :
    windowCount t (l1 ++ l2) = windowCount t l1 + windowCount t l2 := by
  unfold windowCount
  rw [List.filter_append, List.length_append]

/-- The `windowCount` vanishes on a list with no in-window element. -/

theorem windowCount_eq_zero (t : ℚ) (l : List ℚ)
    (h : ∀ e ∈ l, ¬(t - 60 ≤ e ∧ e ≤ t)) : windowCount t l = 0 := by
  unfold windowCount
  rw [List.length_eq_zero]
  rw [List.filter_eq_nil]
  intro e he
  have := h e he
  simp only [Bool.and_eq_true, decide_eq_true_eq]
  tauto

/-- The `windowCount` is at most the list length. -/

theorem windowCount_le_length (t : ℚ) (l : List ℚ) :
    windowCount t l ≤ l.length := List.length_filter_le _ _

/-- The eviction loop removes a front segment of entries strictly older
than 60 seconds. -/

theorem evictOld_decomp (now : ℚ) : ∀ ts : List ℚ,
    ∃ removed, ts = removed ++ evictOld now ts ∧
      ∀ t ∈ removed, 60 < now - t := by
  intro ts
  induction ts with
  | nil => exact ⟨[], rfl, by simp⟩
  | cons t ts ih =>
      by_cases h : 60 < now - t
      · obtain ⟨removed, hdec, hbound⟩ := ih
        refine ⟨t :: removed, ?_, ?_⟩
        · rw [evictOld, if_pos h, List.cons_append, ← hdec]
        · intro u hu
          rcases List.mem_cons.mp hu with rfl | hu
          · exact h
          · exact hbound u hu
      · exact ⟨[], by rw [evictOld, if_neg h, List.nil_append], by simp⟩

/-- The gate mutates only the timestamp deque (the eviction persists even
when the action is blocked). -/

theorem gate_snd (a c : ℕ) (ha : 0 < a) (now : ℚ) (st : LoopState) :
    (canExecuteLiveAction (liveCfg a c) now st).2 =
      { st with timestamps := evictOld now st.timestamps } := by
  unfold canExecuteLiveAction clickGate liveCfg
  simp only [Bool.false_eq_true, if_false, if_pos ha]
  split_ifs <;> rfl

/-- When the gate allows the action, the evicted window is strictly under
the rate limit and the click counter strictly under the cap. -/

theorem gate_allowed (a c : ℕ) (ha : 0 < a) (hc : 0 < c) (now : ℚ) (st : LoopState)
    (h : (canExecuteLiveAction (liveCfg a c) now st).1 = true) :
    (evictOld now st.timestamps).length < a ∧ st.click_count < c := by
  unfold canExecuteLiveAction clickGate liveCfg at h
  simp only [Bool.false_eq_true, if_false, if_pos ha] at h
  by_cases h1 : a ≤ (evictOld now st.timestamps).length
  · rw [if_pos h1] at h
    exact absurd h (by simp)
  · rw [if_neg h1] at h
    by_cases h2 : 0 < c ∧ c ≤ st.click_count
    · rw [if_pos h2] at h
      exact absurd h (by simp)
    · push_neg at h1
      rcases not_and_or.mp h2 with h3 | h3
      · omega
      · push_neg at h3
        exact ⟨h1, h3⟩

/-- One tick preserves the safety invariant. -/

theorem LoopInv_tick (a c : ℕ) (ha : 0 < a) (hc : 0 < c) (st : LoopState)
    (inp : TickInput) (hv : ValidInput st inp) (hinv : LoopInv a c st) :
    LoopInv a c (tick (liveCfg a c) st inp) := by
  obtain ⟨hclick, ⟨dropped, hdec, hbound⟩, hwin⟩ := hinv
  cases inp with
  | skip now =>
      exact ⟨hclick, ⟨dropped, hdec,
        fun t ht => lt_of_lt_of_le (hbound t ht) hv⟩, hwin⟩
  | attempt now now2 =>
      obtain ⟨hcl, hcl2⟩ := hv
      obtain ⟨removed, hrdec, hrbound⟩ := evictOld_decomp now st.timestamps
      unfold tick
      dsimp only
      rw [gate_snd a c ha now st]
      by_cases hall : (canExecuteLiveAction (liveCfg a c) now st).1 = true
      · rw [if_pos hall]
        obtain ⟨hlen, hclick2⟩ := gate_allowed a c ha hc now st hall
        unfold recordLiveActionExecution liveCfg
        simp only [Bool.false_eq_true, if_false]
        refine ⟨by simpa using Nat.succ_le_of_lt hclick2, ?_, ?_⟩
        · refine ⟨dropped ++ removed, ?_, ?_⟩
          · show st.history ++ [now2] = _
            conv_lhs => rw [hdec, hrdec]
            simp [List.append_assoc]
          · intro t ht
            rcases List.mem_append.mp ht with h | h
            · exact lt_of_lt_of_le (hbound t h) (hcl.trans hcl2)
            · have := hrbound t h
              have h2 : t + 60 < now := by linarith
              exact lt_of_lt_of_le h2 hcl2
        · intro t
          simp only []
          rw [windowCount_append_single]
          by_cases hwx : t - 60 ≤ now2 ∧ now2 ≤ t
          · rw [if_pos hwx]
            have hnone : windowCount t (dropped ++ removed) = 0 := by
              apply windowCount_eq_zero
              intro e he hew
              have he60 : e + 60 < now := by
                rcases List.mem_append.mp he with h | h
                · exact lt_of_lt_of_le (hbound e h) hcl
                · have := hrbound e h; linarith
              have : t ≤ e + 60 := by
                have := hew.1
                have := hwx.2
                linarith
              have : t < now := lt_of_le_of_lt this he60
              have : now2 < now := lt_of_le_of_lt hwx.2 this
              linarith
            have hsplit : st.history = (dropped ++ removed) ++
                evictOld now st.timestamps := by
              conv_lhs => rw [hdec, hrdec]
              rw [List.append_assoc]
            have : windowCount t st.history ≤ (evictOld now st.timestamps).length := by
              rw [hsplit, windowCount_append, hnone, Nat.zero_add]
              exact windowCount_le_length _ _
            omega
          · rw [if_neg hwx]
            have := hwin t
            omega
      · rw [if_neg hall]
        refine ⟨hclick, ⟨dropped ++ removed, ?_, ?_⟩, hwin⟩
        · show st.history = _
          conv_lhs => rw [hdec, hrdec]
          rw [List.append_assoc]
        · intro t ht
          rcases List.mem_append.mp ht with h | h
          · exact lt_of_lt_of_le (hbound t h) hcl
          · have := hrbound t h
            simp only []
            linarith

/-- Every reachable state satisfies the invariant. -/

theorem Reachable_LoopInv (a c : ℕ) (ha : 0 < a) (hc : 0 < c) (st : LoopState)
    (hr : Reachable (liveCfg a c) st) : LoopInv a c st := by
  induction hr with
  | init =>
      refine ⟨Nat.zero_le _, ⟨[], rfl, by simp⟩, fun t => ?_⟩
      simp [windowCount, initLoopState]
  | step inp hprev hvinp ih => exact LoopInv_tick a c ha hc _ inp hvinp ih

/-- C1: in live mode with positive limits, at every reachable loop state
the lifetime click counter is at most `max_clicks` and every trailing
60-second window contains at most `max_actions_per_min` recorded
executions; moreover a tick whose gate denies the action only increments
`safety_blocks` — the execution history and click counter are untouched. -/

theorem session_loop_safety (a c : ℕ) (ha : 0 < a) (hc : 0 < c) (st : LoopState)
    (hr : Reachable (liveCfg a c) st) :
    st.click_count ≤ c ∧
    (∀ t : ℚ, windowCount t st.history ≤ a) ∧
    ∀ now now2 : ℚ, (canExecuteLiveAction (liveCfg a c) now st).1 = false →
      (tick (liveCfg a c) st (TickInput.attempt now now2)).safety_blocks =
        st.safety_blocks + 1 ∧
      (tick (liveCfg a c) st (TickInput.attempt now now2)).history = st.history ∧
      (tick (liveCfg a c) st (TickInput.attempt now now2)).click_count =
        st.click_count := by
  obtain ⟨h1, h2, h3⟩ := Reachable_LoopInv a c ha hc st hr
  refine ⟨h1, h3, ?_⟩
  intro now now2 hden
  unfold tick
  dsimp only
  rw [hden, gate_snd a c ha now st]
  simp

/-- Witness for the session-loop safety theorem: the default limits
(30 actions/min, 300 clicks) at the reachable state after one executed
action from the initial state. -/

theorem session_loop_safety_witness :
    (tick (liveCfg 30 300) initLoopState (TickInput.attempt 1 1)).click_count ≤ 300 ∧
    (∀ t : ℚ, windowCount t
      (tick (liveCfg 30 300) initLoopState (TickInput.attempt 1 1)).history ≤ 30) ∧
    ∀ now now2 : ℚ, (canExecuteLiveAction (liveCfg 30 300) now
        (tick (liveCfg 30 300) initLoopState (TickInput.attempt 1 1))).1 = false →
      (tick (liveCfg 30 300)
          (tick (liveCfg 30 300) initLoopState (TickInput.attempt 1 1))
          (TickInput.attempt now now2)).safety_blocks =
        (tick (liveCfg 30 300) initLoopState (TickInput.attempt 1 1)).safety_blocks
          + 1 ∧
      (tick (liveCfg 30 300)
          (tick (liveCfg 30 300) initLoopState (TickInput.attempt 1 1))
          (TickInput.attempt now now2)).history =
        (tick (liveCfg 30 300) initLoopState (TickInput.attempt 1 1)).history ∧
      (tick (liveCfg 30 300)
          (tick (liveCfg 30 300) initLoopState (TickInput.attempt 1 1))
          (TickInput.attempt now now2)).click_count =
        (tick (liveCfg 30 300) initLoopState (TickInput.attempt 1 1)).click_count :=
  session_loop_safety 30 300 (by decide) (by decide) _
    (Reachable.step (TickInput.attempt 1 1) Reachable.init
      ⟨by norm_num [initLoopState], by norm_num⟩)

end Jinchanchan
